import Mathlib

/-!
# Shallow embedding of the carbon2d engine (src/engine.ts)

Numbers in the source are JavaScript numbers used only with `+`, `-`, `*`,
`/` and order comparisons; we embed them as `Int` where the code does no
division (geometry, actors) and as `Rat` where it does (the frame
scheduler's elapsed-time arithmetic).

Each definition mirrors one class/method of `src/engine.ts`; the line
numbers in the comments refer to that file.
-/

namespace Carbon2d

/-- `class Rectangle` (engine.ts:3-23): plain {x, y, width, height} record.
Parametric in the number type so the same record serves the integer
geometry model and the rational scheduler model. -/
structure Rectangle (α : Type) where
  x : α
  y : α
  width : α
  height : α
deriving Repr, DecidableEq

/-- `Rectangle.hitTest(other)` (engine.ts:16-22):
`horizontal = other.x < this.x + this.width && this.x < other.x + other.width`,
`vertical` likewise on y, result `horizontal && vertical`. -/
def Rectangle.hitTest {α : Type} [Add α] [LinearOrder α]
    (self other : Rectangle α) : Bool :=
  let horizontal :=
    decide (other.x < self.x + self.width) && decide (self.x < other.x + other.width)
  let vertical :=
    decide (other.y < self.y + self.height) && decide (self.y < other.y + other.height)
  horizontal && vertical

/-- Half-open horizontal extents: the spec reads `overlaps` as "the
intervals `[x, x+width)` intersect".  A point lying in both x-intervals. -/
def intervalsIntersectX (a b : Rectangle Int) : Prop :=
  ∃ t : Int, (a.x ≤ t ∧ t < a.x + a.width) ∧ (b.x ≤ t ∧ t < b.x + b.width)

/-- A point lying in both y-intervals `[y, y+height)`. -/
def intervalsIntersectY (a b : Rectangle Int) : Prop :=
  ∃ t : Int, (a.y ≤ t ∧ t < a.y + a.height) ∧ (b.y ≤ t ∧ t < b.y + b.height)

instance (a b : Rectangle Int) : Decidable (intervalsIntersectX a b) :=
  decidable_of_iff (max a.x b.x < min (a.x + a.width) (b.x + b.width)) (by
    constructor
    · intro h
      exact ⟨max a.x b.x, ⟨by omega, by omega⟩, by omega, by omega⟩
    · rintro ⟨t, ⟨h1, h2⟩, h3, h4⟩
      omega)

instance (a b : Rectangle Int) : Decidable (intervalsIntersectY a b) :=
  decidable_of_iff (max a.y b.y < min (a.y + a.height) (b.y + b.height)) (by
    constructor
    · intro h
      exact ⟨max a.y b.y, ⟨by omega, by omega⟩, by omega, by omega⟩
    · rintro ⟨t, ⟨h1, h2⟩, h3, h4⟩
      omega)

/-- `class SpriteActor` (engine.ts:155-193), the fields its
`isOutOfBounds` method reads: the actor position `x`, `y` (inherited from
`Actor`) and `width`, `height` (copied from `sprite.rectangle`). -/
structure SpriteActor where
  x : Int
  y : Int
  width : Int
  height : Int
deriving Repr, DecidableEq

/-- `SpriteActor.isOutOfBounds(boundRect)` (engine.ts:182-192).  Note the
source compares `actorLeft > boundRect.width` and
`actorTop > boundRect.height` — the bound's `width`/`height` fields are
used directly as the right/bottom edges. -/
def SpriteActor.isOutOfBounds (a : SpriteActor) (boundRect : Rectangle Int) : Bool :=
  let actorLeft := a.x
  let actorRight := a.x + a.width
  let actorTop := a.y
  let actorBottom := a.y + a.height
  let horizontal := decide (actorRight < boundRect.x) || decide (actorLeft > boundRect.width)
  let vertical := decide (actorBottom < boundRect.y) || decide (actorTop > boundRect.height)
  horizontal || vertical

/-- An out-of-bounds test written from the spec's words: the bound
rectangle's right edge is `b.x + b.width` and bottom edge `b.y + b.height`
(what the code would have to compute for a bound not at the origin). -/
def isOutOfBoundsPositioned (a : SpriteActor) (b : Rectangle Int) : Bool :=
  (decide (a.x + a.width < b.x) || decide (a.x > b.x + b.width)) ||
  (decide (a.y + a.height < b.y) || decide (a.y > b.y + b.height))

/-! ## AssetLoader (engine.ts:35-64)

The asynchronous boundary is embedded by outcome: each registered image
load either fires its `load` event or errors.  `addImage` wraps the image
in `new Promise((resolve, reject) => img.addEventListener('load', ...))` —
only a `load` listener is installed and `reject` is never called, so the
per-image promise settles exactly when the load succeeds. -/

/-- What the host does with one registered image: the load either
succeeds (fires `load`) or fails (fires `error`). -/
inductive LoadOutcome where
  | success
  | failure
deriving Repr, DecidableEq

/-- Settlement state of a JavaScript promise. -/
inductive PromiseState where
  | pending
  | resolved
  | rejected
deriving Repr, DecidableEq

/-- Final state of the promise built by `AssetLoader.addImage`
(engine.ts:48-53): it resolves on the `load` event; no `error` listener is
installed and `reject` is never invoked, so on a failed load it stays
pending forever. -/
def imagePromiseState (o : LoadOutcome) : PromiseState :=
  match o with
  | .success => .resolved
  | .failure => .pending

/-- `Promise.all` settlement: rejected as soon as any constituent is
rejected, resolved when all are resolved, otherwise pending. -/
def promiseAllState (ps : List PromiseState) : PromiseState :=
  if ps.any (fun p => p == .rejected) then .rejected
  else if ps.all (fun p => p == .resolved) then .resolved
  else .pending

/-- `AssetLoader.loadAll` (engine.ts:57-59) = `Promise.all(this._promises)`
over the per-image promises, given each image's load outcome. -/
def loadAllState (outcomes : List LoadOutcome) : PromiseState :=
  promiseAllState (outcomes.map imagePromiseState)

/-! ## Game loop (engine.ts:353-412)

`Game._loop` does real division (`elapsedSec`, `currentFps`,
`1 / this.maxFps`), so this model uses `Rat`.  The call
`this.currentScene.update(info, input)` is recorded as an invocation
event carrying the `GameInfo` it was passed; `requestAnimationFrame`
(pure rescheduling) has no in-model effect. -/

/-- `class GameInfo` (engine.ts:337-351). -/
structure GameInfo where
  title : String
  description : String
  screenRectangle : Rectangle Rat
  maxFps : Rat
  currentFps : Rat
deriving Repr, DecidableEq

/-- The fields of `class Game` (engine.ts:353-374) read or written by
`_loop`. -/
structure GameSt where
  title : String
  description : String
  width : Rat
  height : Rat
  maxFps : Rat
  currentFps : Rat
  prevTimestamp : Rat
deriving Repr, DecidableEq

/-- `Game._loop(timestamp)` (engine.ts:387-411) as one tick: returns the
updated game state and the list of `currentScene.update` invocations the
tick performed (each with the `GameInfo` passed). -/
def gameLoopTick (timestamp : Rat) (g : GameSt) : GameSt × List GameInfo :=
  let elapsedSec := (timestamp - g.prevTimestamp) / 1000
  let accuracy : Rat := 9 / 10
  let frameTime := (1 / g.maxFps) * accuracy
  if elapsedSec ≤ frameTime then
    (g, [])
  else
    let g1 := { g with prevTimestamp := timestamp, currentFps := 1 / elapsedSec }
    let screenRectangle : Rectangle Rat := ⟨0, 0, g.width, g.height⟩
    let info : GameInfo :=
      ⟨g.title, g.description, screenRectangle, g.maxFps, g1.currentFps⟩
    (g1, [info])

/-! ## EventDispatcher (engine.ts:68-91)

`_eventListeners` is a plain object mapping topic strings to JavaScript
arrays of callbacks.  Arrays are heap objects aliased by reference:
`removeAllEventListener` replaces the whole map with `{}` but the array a
running `forEach` already holds stays alive.  We model the heap
explicitly: `arrays` is the store of allocated listener arrays (index =
allocation id) and `table` maps a topic to the id of its current array.
Callbacks are embedded syntactically (`HAct`) so that a handler can
itself call `addEventListener` / `removeAllEventListener` re-entrantly,
as the spec demands. -/

/-- A handler callback, by the dispatcher-mutating effects it performs
when invoked. -/
inductive HAct where
  /-- a callback that does not touch the dispatcher -/
  | noop
  /-- a callback that calls `addEventListener(topic, h)` -/
  | add (topic : String) (h : HAct)
  /-- a callback that calls `removeAllEventListener()` -/
  | clear
  /-- a callback performing two effects in sequence -/
  | seq (a b : HAct)
deriving Repr, DecidableEq

/-- The dispatcher's mutable state: the heap of listener arrays and the
`_eventListeners` object (topic → array id; `addEventListener` writes a
topic key at most once between clears, so an association list kept
first-match is faithful). -/
structure DispatcherSt where
  arrays : List (List HAct)
  table : List (String × Nat)
deriving Repr, DecidableEq

/-- The freshly constructed dispatcher (engine.ts:71-73). -/
def DispatcherSt.empty : DispatcherSt := ⟨[], []⟩

/-- Property read `this._eventListeners[type]`. -/
def lookupTopic (t : String) (s : DispatcherSt) : Option Nat :=
  (s.table.find? (fun p => p.1 == t)).map Prod.snd

/-- The listener array currently allocated under heap id `id`. -/
def arrGet (s : DispatcherSt) (id : Nat) : List HAct :=
  s.arrays.getD id []

/-- `addEventListener(type, callback)` (engine.ts:75-81): allocate a fresh
empty array if the topic has none, then push the callback onto the
topic's array. -/
def addEventListener (t : String) (callback : HAct) (s : DispatcherSt) : DispatcherSt :=
  match lookupTopic t s with
  | none =>
      { arrays := s.arrays ++ [[callback]]
        table := s.table ++ [(t, s.arrays.length)] }
  | some id =>
      { s with arrays := s.arrays.set id (arrGet s id ++ [callback]) }

/-- `removeAllEventListener()` (engine.ts:83-85): `this._eventListeners = {}`.
The old arrays stay in the heap (a running `forEach` may still hold one). -/
def removeAllEventListener (s : DispatcherSt) : DispatcherSt :=
  { s with table := [] }

/-- Invoking one callback: interpret its dispatcher effects. -/
def runHAct : HAct → DispatcherSt → DispatcherSt
  | .noop, s => s
  | .add t h, s => addEventListener t h s
  | .clear, s => removeAllEventListener s
  | .seq a b, s => runHAct b (runHAct a s)

/-- The `listeners.forEach(callback => callback(event))` loop of
`dispatchEvent` (engine.ts:89).  `forEach` captures the array (here: its
heap id) and its length before the first call, then reads index `k` from
the live array at each step, skipping indices that no longer exist.
Returns the final state and the callbacks invoked, in order. -/
def dispatchLoop (id : Nat) : Nat → Nat → DispatcherSt → List HAct → DispatcherSt × List HAct
  | 0, _, s, invoked => (s, invoked)
  | fuel + 1, k, s, invoked =>
      match (arrGet s id)[k]? with
      | none => dispatchLoop id fuel (k + 1) s invoked
      | some callback => dispatchLoop id fuel (k + 1) (runHAct callback s) (invoked ++ [callback])

/-- `dispatchEvent(type, event)` (engine.ts:87-90): look up the topic's
array; it is `undefined` for an unknown topic (no-op), otherwise run the
`forEach` loop over it.  Returns the final state and the invoked
callbacks in order. -/
def dispatchEvent (t : String) (s : DispatcherSt) : DispatcherSt × List HAct :=
  match lookupTopic t s with
  | none => (s, [])
  | some id => dispatchLoop id (arrGet s id).length 0 s []

/-! ## Actor and Scene (engine.ts:101-153, 254-335)

Actors are heap objects identified by reference; we give each a numeric
`id` and work under a distinct-ids hypothesis in the scenario theorems,
so that the source's reference lookups (`indexOf`, `this`) become id
lookups.  An actor's `update` is a polymorphic hook; the model's actor
subclass executes a script of lifecycle calls (`spawnActor`, `destroy`)
the first time its `update` runs, which is exactly the shape the spec's
scenarios exercise.  A scene installs its two listeners
(`'spawnactor' → this.add`, `'destroy' → this._addDestroyedActor`,
engine.ts:274-275) on every added actor; since those closures are the
only listeners the engine ever registers on an actor, an actor's listener
list is embedded as data: a list of (topic, tag) pairs in registration
order, the tags naming those two closures. -/

/-- The constructor arguments of a child actor passed to
`spawnActor` (the spawned child of the spec's scenarios runs no script of
its own). -/
structure ActorSpec where
  id : Nat
  x : Int
  y : Int
  hitArea : Rectangle Int
deriving Repr, DecidableEq

/-- One lifecycle call performed by a scripted actor's `update`. -/
inductive Cmd where
  /-- `this.spawnActor(child)` (engine.ts:128-130) -/
  | spawn (child : ActorSpec)
  /-- `this.destroy()` (engine.ts:132-134) -/
  | destroySelf
deriving Repr, DecidableEq

/-- The two closures `Scene.add` registers on an actor
(engine.ts:274-275). -/
inductive ListenerTag where
  /-- `e => this.add(e.target)` under topic `'spawnactor'` -/
  | sceneAddChild
  /-- `e => this._addDestroyedActor(e.target)` under topic `'destroy'` -/
  | scenePendingDestroy
deriving Repr, DecidableEq

/-- `class Actor` (engine.ts:101-153): position, owned hit rectangle,
captured offsets, the embedded dispatcher's listener registrations, and
the scripted-update state. -/
structure ActorObj where
  id : Nat
  x : Int
  y : Int
  hitArea : Rectangle Int
  hitAreaOffsetX : Int
  hitAreaOffsetY : Int
  listeners : List (String × ListenerTag)
  script : List Cmd
deriving Repr, DecidableEq

instance : Inhabited ActorObj :=
  ⟨⟨0, 0, 0, ⟨0, 0, 0, 0⟩, 0, 0, [], []⟩⟩

/-- `set x(value)` (engine.ts:144-147): store the position and recompute
the hit rectangle's x as `value + this._hitAreaOffsetX`. -/
def setX (value : Int) (a : ActorObj) : ActorObj :=
  { a with x := value, hitArea := { a.hitArea with x := value + a.hitAreaOffsetX } }

/-- `set y(value)` (engine.ts:149-152). -/
def setY (value : Int) (a : ActorObj) : ActorObj :=
  { a with y := value, hitArea := { a.hitArea with y := value + a.hitAreaOffsetY } }

/-- The `Actor` constructor (engine.ts:109-118): capture the offsets from
the supplied rectangle, then run both position setters (`this.x = x`
invokes `set x`, likewise y). -/
def mkActor (id : Nat) (x y : Int) (hitArea : Rectangle Int) (script : List Cmd) : ActorObj :=
  let a : ActorObj :=
    { id := id, x := 0, y := 0, hitArea := hitArea
      hitAreaOffsetX := hitArea.x, hitAreaOffsetY := hitArea.y
      listeners := [], script := script }
  setY y (setX x a)

/-- A position mutation performed on an actor by outside code. -/
inductive Mutation where
  | mutX (value : Int)
  | mutY (value : Int)
deriving Repr, DecidableEq

def applyMutation (a : ActorObj) : Mutation → ActorObj
  | .mutX v => setX v a
  | .mutY v => setY v a

/-- The value stored in a `GameEvent`'s `_target` field by its
constructor (engine.ts:96-98): either a reference to an existing actor or
the freshly constructed child passed to `spawnActor`. -/
inductive EvTarget where
  | ref (id : Nat)
  | spawned (child : ActorSpec)
deriving Repr, DecidableEq

/-- The actor id a stored `_target` denotes. -/
def EvTarget.targetId : EvTarget → Nat
  | .ref id => id
  | .spawned c => c.id

/-- The value of the property read `e.target` on a `GameEvent`
(engine.ts:93-99): the constructor stores the payload in `this._target`
and the class declares no `target` member and no getter, so the read
yields `undefined` (`none`) no matter what was stored. -/
def GameEvent.targetRead (stored : EvTarget) : Option EvTarget :=
  match stored with
  | _ => none

/-- The one runtime exception this engine can raise on its own: calling a
method on `undefined`. -/
inductive JsError where
  | typeError
deriving Repr, DecidableEq

/-- Observable events of one scene frame, in program order.
`dispatched a t b` records the call `a.dispatchEvent(t, new GameEvent(b))`;
`tested i j` records the call `obj1.hitArea.hitTest(obj2.hitArea)` on the
actors with ids `i`, `j`; `rendered` records `actor.render(target)`;
`updateCalled` records `actor.update(gameInfo, input)`. -/
inductive LogEntry where
  | updateCalled (id : Nat)
  | dispatched (selfId : Nat) (topic : String) (targetId : Nat)
  | tested (idI idJ : Nat)
  | screenCleared
  | rendered (id : Nat)
deriving Repr, DecidableEq

/-- `class Scene` (engine.ts:254-335): the live actor collection, the
pending `_destroyedActors` list, and the frame's observation log.
`_destroyedActors` holds whatever values the `'destroy'` listener pushed:
`e.target` reads, i.e. actor references (`some id`) or `undefined`
(`none`) — in the engine always `undefined`, see `GameEvent.targetRead`.
`thrown` records a pending JavaScript exception: once it is set, the rest
of the aborted call tree does not run and the state is never observed
again by the program. -/
structure SceneSt where
  actors : List ActorObj
  destroyedActors : List (Option Nat)
  log : List LogEntry
  thrown : Option JsError
deriving Repr, DecidableEq

/-- The scene as constructed (engine.ts:261-270). -/
def SceneSt.emptyScene : SceneSt := ⟨[], [], [], none⟩

/-- The two registrations `Scene.add` performs, in order
(engine.ts:274-275). -/
def stdListeners : List (String × ListenerTag) :=
  [("spawnactor", ListenerTag.sceneAddChild),
   ("destroy", ListenerTag.scenePendingDestroy)]

/-- The effect of the two `actor.addEventListener` calls in `Scene.add`
on the added actor object. -/
def subscribeStd (a : ActorObj) : ActorObj :=
  { a with listeners := a.listeners ++ stdListeners }

/-- `Scene.add(actor)` (engine.ts:272-276): push the actor, then register
the scene's `'spawnactor'` and `'destroy'` listeners on it. -/
def sceneAdd (a : ActorObj) (s : SceneSt) : SceneSt :=
  { s with actors := s.actors ++ [subscribeStd a] }

/-- `Scene.remove(actor)` (engine.ts:278-281):
`const index = this.actors.indexOf(actor); this.actors.splice(index, 1)`.
When the actor is absent `indexOf` yields `-1` and `splice(-1, 1)`
deletes the LAST element (or nothing if the collection is empty). -/
def sceneRemove (targetId : Nat) (s : SceneSt) : SceneSt :=
  match s.actors.findIdx? (fun a => a.id == targetId) with
  | some i => { s with actors := s.actors.eraseIdx i }
  | none => { s with actors := s.actors.eraseIdx (s.actors.length - 1) }

/-- `Scene.remove(value)` where the argument is what `_disposeDestroyedActors`
read out of `_destroyedActors`: an actor reference or `undefined`.
`indexOf(undefined)` on a collection of actor objects is `-1`, so for
`undefined` the `splice(-1, 1)` path always runs and deletes the last
actor. -/
def sceneRemoveRef (ref : Option Nat) (s : SceneSt) : SceneSt :=
  match ref with
  | some targetId => sceneRemove targetId s
  | none => { s with actors := s.actors.eraseIdx (s.actors.length - 1) }

/-- Run one of the scene's listener closures on a dispatched `GameEvent`
whose `_target` holds `stored`.  Both closures read `e.target`
(engine.ts:274-275), and that read yields `undefined`
(`GameEvent.targetRead`). -/
def runListener (stored : EvTarget) (tag : ListenerTag) (s : SceneSt) : SceneSt :=
  match tag with
  | .sceneAddChild =>
      -- `e => this.add(e.target)` = `this.add(undefined)`:
      -- `add` first pushes `undefined` onto the live array, then
      -- `undefined.addEventListener('spawnactor', ...)` (engine.ts:273-274)
      -- throws a TypeError that unwinds the whole `Scene.update` call.
      -- The crashed scene is never observed again (the exception also
      -- aborts `Game._loop` before it can reschedule), so the model
      -- records the exception and freezes the state.
      match GameEvent.targetRead stored with
      | some (.spawned c) => sceneAdd (mkActor c.id c.x c.y c.hitArea []) s
      | some (.ref _) => s
      | none => { s with thrown := some JsError.typeError }
  | .scenePendingDestroy =>
      -- `e => this._addDestroyedActor(e.target)` (engine.ts:275, 327-329):
      -- pushes the read value — `undefined` — onto `_destroyedActors`.
      { s with destroyedActors :=
          s.destroyedActors ++ [(GameEvent.targetRead stored).map EvTarget.targetId] }

/-- `actor.dispatchEvent(topic, new GameEvent(stored))` for an actor
inside a scene: log the publish, look the actor up by reference and run
the listeners registered on it under `topic`, in registration order
(engine.ts:87-90 specialised to the scene's listener closures; none of
those closures mutates an existing actor's listener list, so the live
list equals the snapshot).  A listener that throws aborts the `forEach`:
the remaining listeners are skipped. -/
def dispatchOn (selfId : Nat) (topic : String) (stored : EvTarget) (s : SceneSt) : SceneSt :=
  let s1 : SceneSt := { s with log := s.log ++ [.dispatched selfId topic stored.targetId] }
  match s1.actors.find? (fun a => a.id == selfId) with
  | none => s1
  | some a =>
      let tags := (a.listeners.filter (fun p => p.1 == topic)).map Prod.snd
      tags.foldl (fun st tag => if st.thrown.isSome then st else runListener stored tag st) s1

/-- One lifecycle call of a scripted `update` body; a pending exception
skips the rest of the body. -/
def runCmd (selfId : Nat) (s : SceneSt) (c : Cmd) : SceneSt :=
  if s.thrown.isSome then s
  else
    match c with
    | .spawn child => dispatchOn selfId "spawnactor" (.spawned child) s
    | .destroySelf => dispatchOn selfId "destroy" (.ref selfId) s

/-- In-place consumption of actor `i`'s script, seen through the live
collection: the entry whose identity is `i` has its script cleared. -/
def consumeScript (i : Nat) (b : ActorObj) : ActorObj :=
  if b.id == i then { b with script := [] } else b

/-- `actor.update(gameInfo, input)` for the scripted actor subclass: log
the call, consume the script (the subclass runs its scripted lifecycle
calls once), then perform the calls in order.  Consuming mutates the
actor object in place, i.e. rewrites its entry in the live collection. -/
def actorUpdate (a : ActorObj) (s : SceneSt) : SceneSt :=
  let s1 : SceneSt := { s with
    log := s.log ++ [.updateCalled a.id]
    actors := s.actors.map (consumeScript a.id) }
  a.script.foldl (fun st c => runCmd a.id st c) s1

/-- `this.actors.forEach(actor => actor.update(gameInfo, input))`
(engine.ts:296-298): `forEach` captures the length before the first call
and reads index `k` from the live array at each step, so actors pushed
during the pass are not visited. -/
def updateLoop : Nat → Nat → SceneSt → SceneSt
  | 0, _, s => s
  | fuel + 1, k, s =>
      if s.thrown.isSome then s
      else
        match s.actors[k]? with
        | none => updateLoop fuel (k + 1) s
        | some a => updateLoop fuel (k + 1) (actorUpdate a s)

/-- `Scene._updateAll` (engine.ts:296-298). -/
def updateAll (s : SceneSt) : SceneSt :=
  updateLoop s.actors.length 0 s

/-- The index pairs `(i, j)` enumerated by the nested loops of
`Scene._hitTest` (engine.ts:302-303): `i` ascending over `[0, length)`,
for each `i` the inner `j` ascending over `(i, length)`. -/
def pairIdx (n : Nat) : List (Nat × Nat) :=
  (List.range n).flatMap (fun i => ((List.range n).filter (fun j => i < j)).map (fun j => (i, j)))

/-- One inner-loop iteration of `Scene._hitTest` (engine.ts:304-310):
read `obj1`, `obj2` from the live collection, test their hit areas, and
on a hit publish `'hit'` on both actors, each carrying the other. -/
def hitStep (s : SceneSt) (p : Nat × Nat) : SceneSt :=
  match s.actors[p.1]?, s.actors[p.2]? with
  | some obj1, some obj2 =>
      let s1 := { s with log := s.log ++ [.tested obj1.id obj2.id] }
      if obj1.hitArea.hitTest obj2.hitArea then
        dispatchOn obj2.id "hit" (.ref obj1.id)
          (dispatchOn obj1.id "hit" (.ref obj2.id) s1)
      else s1
  | _, _ => s

/-- `Scene._hitTest` (engine.ts:300-313): `length` is captured once
before the loops. -/
def hitTestPass (s : SceneSt) : SceneSt :=
  (pairIdx s.actors.length).foldl hitStep s

/-- `Scene._disposeDestroyedActors` (engine.ts:331-334): `remove` every
pending entry (`remove` never touches `_destroyedActors`, so iterating
the captured list is the live iteration), then reset the pending list. -/
def disposeDestroyedActors (s : SceneSt) : SceneSt :=
  let s1 := s.destroyedActors.foldl (fun st ref => sceneRemoveRef ref st) s
  { s1 with destroyedActors := [] }

/-- `Scene._clearScreen` (engine.ts:315-321): fills the render target;
no actor-visible state changes, recorded as one log entry. -/
def clearScreen (s : SceneSt) : SceneSt :=
  { s with log := s.log ++ [.screenCleared] }

/-- `Scene._renderAll` (engine.ts:323-325): render every actor in the
live collection, in order (render hooks draw only; no scene mutation). -/
def renderAll (s : SceneSt) : SceneSt :=
  s.actors.foldl (fun st a => { st with log := st.log ++ [.rendered a.id] }) s

/-- `Scene.update` (engine.ts:288-294): the fixed per-frame pipeline.
An exception raised inside a stage unwinds the whole call, so the later
stages are skipped.  Only listener closures can throw — `_updateAll`
through the scripted lifecycle calls and `_hitTest` through `'hit'`
listeners; the last three stages are exception-free. -/
def sceneUpdate (s : SceneSt) : SceneSt :=
  let s1 := updateAll s
  if s1.thrown.isSome then s1
  else
    let s2 := hitTestPass s1
    if s2.thrown.isSome then s2
    else renderAll (clearScreen (disposeDestroyedActors s2))

/-- Build a scene by `add`ing the given actors in order to a fresh scene. -/
def buildScene (as : List ActorObj) : SceneSt :=
  as.foldl (fun s a => sceneAdd a s) SceneSt.emptyScene

/-- The log entries one inner-loop iteration of `Scene._hitTest` emits for
actors `o1`, `o2`: the hit-test observation, then on overlap the two
`'hit'` publishes (engine.ts:306-310). -/
def hitPairLog (o1 o2 : ActorObj) : List LogEntry :=
  LogEntry.tested o1.id o2.id ::
    (if o1.hitArea.hitTest o2.hitArea then
      [LogEntry.dispatched o1.id "hit" o2.id, LogEntry.dispatched o2.id "hit" o1.id]
    else [])

/-- The whole log segment `Scene._hitTest` emits over a fixed collection
for a given pair enumeration. -/
def hitLogOf (acts : List ActorObj) (ps : List (Nat × Nat)) : List LogEntry :=
  ps.flatMap (fun p =>
    match acts[p.1]?, acts[p.2]? with
    | some o1, some o2 => hitPairLog o1 o2
    | _, _ => [])

/-! ### Concrete states used by the witnesses -/

/-- A dispatcher with three `'hit'` handlers: the first re-registers a new
handler mid-dispatch, the second clears all registrations mid-dispatch. -/
def dispatcherExample : DispatcherSt :=
  addEventListener "hit" HAct.noop
    (addEventListener "hit" HAct.clear
      (addEventListener "hit" (HAct.add "hit" HAct.noop) DispatcherSt.empty))

/-- A game configured at 640x480, 60 fps, fresh from `start()`. -/
def gameExample : GameSt :=
  ⟨"title", "description", 640, 480, 60, 0, 0⟩

/-- A scene holding the single actor with id 0. -/
def oneActorScene : SceneSt :=
  sceneAdd (mkActor 0 0 0 ⟨0, 0, 1, 1⟩ []) SceneSt.emptyScene

/-- The spec's collision example: A, B, C with A∩B and B∩C but not A∩C. -/
def chainScene : SceneSt :=
  buildScene
    [mkActor 0 0 0 ⟨0, 0, 10, 10⟩ [],
     mkActor 1 9 0 ⟨0, 0, 10, 10⟩ [],
     mkActor 2 18 0 ⟨0, 0, 10, 10⟩ []]

/-! # Theorems -/

/-- Claim C8 counterexample: the quantification over every pair of
rectangles fails for a degenerate rectangle.  `a = [0,0,0,10]` has the
empty x-extent `[0, 0)`, yet `hitTest` against `b = [-1,0,2,10]` returns
`true`, so `hitTest` is not equivalent to nonempty intersection of the
half-open intervals at this input. -/
theorem hitTest_iff_intervals_cex :
    Rectangle.hitTest (⟨0, 0, 0, 10⟩ : Rectangle Int) ⟨-1, 0, 2, 10⟩ = true ∧
    ¬(intervalsIntersectX ⟨0, 0, 0, 10⟩ ⟨-1, 0, 2, 10⟩ ∧
      intervalsIntersectY ⟨0, 0, 0, 10⟩ ⟨-1, 0, 2, 10⟩) := by
  decide

/-- Claim C8 (amended): for rectangles with positive width and height,
`hitTest` returns `true` iff the half-open intervals `[x, x+width)`
intersect on the x axis and `[y, y+height)` intersect on the y axis —
the boundary is strict on both sides, so touching edges do not count. -/
theorem hitTest_iff_intervals (a b : Rectangle Int)
    (haw : 0 < a.width) (hah : 0 < a.height)
    (hbw : 0 < b.width) (hbh : 0 < b.height) :
    a.hitTest b = true ↔ (intervalsIntersectX a b ∧ intervalsIntersectY a b) := by
  simp only [Rectangle.hitTest, Bool.and_eq_true, decide_eq_true_eq]
  constructor
  · rintro ⟨⟨h1, h2⟩, h3, h4⟩
    exact ⟨⟨max a.x b.x, ⟨by omega, by omega⟩, by omega, by omega⟩,
           ⟨max a.y b.y, ⟨by omega, by omega⟩, by omega, by omega⟩⟩
  · rintro ⟨⟨t, ⟨ht1, ht2⟩, ht3, ht4⟩, ⟨u, ⟨hu1, hu2⟩, hu3, hu4⟩⟩
    exact ⟨⟨by omega, by omega⟩, by omega, by omega⟩

/-- Claim C8 witness: the amended theorem at the spec's own examples —
`[9,0,10,10]` does overlap `[0,0,10,10]`, and the touching rectangle
`[10,0,10,10]` does not. -/
theorem hitTest_iff_intervals_witness :
    ((0 : Int) < 10) ∧
    (Rectangle.hitTest (⟨0, 0, 10, 10⟩ : Rectangle Int) ⟨9, 0, 10, 10⟩ = true ↔
      (intervalsIntersectX ⟨0, 0, 10, 10⟩ ⟨9, 0, 10, 10⟩ ∧
       intervalsIntersectY ⟨0, 0, 10, 10⟩ ⟨9, 0, 10, 10⟩)) ∧
    Rectangle.hitTest (⟨0, 0, 10, 10⟩ : Rectangle Int) ⟨10, 0, 10, 10⟩ = false :=
  ⟨by decide,
   hitTest_iff_intervals _ _ (by decide) (by decide) (by decide) (by decide),
   by decide⟩

/-- Claim C10: `isOutOfBounds` is exactly the four-way disjunction that
uses `boundRect.width` / `boundRect.height` directly as the right/bottom
edges; consequently it agrees with the properly positioned test exactly
when the bound rectangle sits at the origin, and disagrees off-origin. -/
theorem isOutOfBounds_origin_edges :
    (∀ (a : SpriteActor) (b : Rectangle Int),
      a.isOutOfBounds b = true ↔
        (a.x + a.width < b.x ∨ a.x > b.width ∨
         a.y + a.height < b.y ∨ a.y > b.height)) ∧
    (∀ (a : SpriteActor) (b : Rectangle Int), b.x = 0 → b.y = 0 →
      a.isOutOfBounds b = isOutOfBoundsPositioned a b) ∧
    (∃ (a : SpriteActor) (b : Rectangle Int),
      a.isOutOfBounds b ≠ isOutOfBoundsPositioned a b) := by
  refine ⟨?_, ?_, ⟨⟨15, 5, 1, 1⟩, ⟨10, 0, 10, 10⟩, by decide⟩⟩
  · intro a b
    simp only [SpriteActor.isOutOfBounds, Bool.or_eq_true, decide_eq_true_eq]
    omega
  · intro a b hx hy
    simp only [SpriteActor.isOutOfBounds, isOutOfBoundsPositioned, hx, hy, zero_add]

/-- Claim C10 witness: the origin-agreement clause at a concrete actor
and the origin bound `[0,0,10,10]`. -/
theorem isOutOfBounds_origin_edges_witness :
    SpriteActor.isOutOfBounds ⟨0, 0, 1, 1⟩ ⟨0, 0, 10, 10⟩ =
      isOutOfBoundsPositioned ⟨0, 0, 1, 1⟩ ⟨0, 0, 10, 10⟩ :=
  isOutOfBounds_origin_edges.2.1 ⟨0, 0, 1, 1⟩ ⟨0, 0, 10, 10⟩ rfl rfl

/-- Claim C9 (code evaluated at the failing input): when any registered
image load fails, `loadAll`'s `Promise.all` stays pending forever — it is
never rejected and never resolved, because `addImage` installs only a
`load` listener and never calls `reject`.  The claimed propagation of the
failure to the caller does not happen. -/
theorem loadAll_failed_never_settles :
    ∀ outcomes : List LoadOutcome, LoadOutcome.failure ∈ outcomes →
      loadAllState outcomes = PromiseState.pending ∧
      loadAllState outcomes ≠ PromiseState.rejected := by
  intro outcomes hmem
  have h1 : ((outcomes.map imagePromiseState).any fun p => p == PromiseState.rejected) = false := by
    rw [List.any_eq_false]
    intro p hp
    simp only [List.mem_map] at hp
    obtain ⟨o, _, rfl⟩ := hp
    cases o <;> simp [imagePromiseState]
  have h2 : ((outcomes.map imagePromiseState).all fun p => p == PromiseState.resolved) = false := by
    rw [List.all_eq_false]
    exact ⟨_, List.mem_map_of_mem _ hmem, by simp [imagePromiseState]⟩
  constructor
  · simp [loadAllState, promiseAllState, h1, h2]
  · simp [loadAllState, promiseAllState, h1, h2]

/-- Claim C9 witness: one successful and one failed load — the aggregate
hangs (pending), it does not reject. -/
theorem loadAll_failed_never_settles_witness :
    loadAllState [LoadOutcome.success, LoadOutcome.failure] = PromiseState.pending ∧
    loadAllState [LoadOutcome.success, LoadOutcome.failure] ≠ PromiseState.rejected :=
  loadAll_failed_never_settles _ (by decide)

/-- Claim C7: a tick with `elapsed = (t - lastTick)/1000` at most
`(1/maxRate)*0.9` performs zero scene updates (hence zero renders) and
leaves the whole scheduler state — including `lastTickTimestamp` and
`currentRate` — unchanged; otherwise it records `lastTickTimestamp = t`,
sets `currentRate = 1/elapsed`, and invokes the scene's `update` exactly
once, with a frame-info snapshot whose screen rectangle is at the origin
with the configured width and height. -/
theorem gameLoopTick_gate (g : GameSt) (timestamp : Rat) :
    ((timestamp - g.prevTimestamp) / 1000 ≤ (1 / g.maxFps) * (9 / 10) →
      gameLoopTick timestamp g = (g, [])) ∧
    (¬((timestamp - g.prevTimestamp) / 1000 ≤ (1 / g.maxFps) * (9 / 10)) →
      gameLoopTick timestamp g =
        ({ g with prevTimestamp := timestamp
                  currentFps := 1 / ((timestamp - g.prevTimestamp) / 1000) },
         [⟨g.title, g.description, ⟨0, 0, g.width, g.height⟩, g.maxFps,
           1 / ((timestamp - g.prevTimestamp) / 1000)⟩])) := by
  refine ⟨fun h => ?_, fun h => ?_⟩
  · simp only [gameLoopTick]
    rw [if_pos h]
  · simp only [gameLoopTick]
    rw [if_neg h]

/-- Claim C7 witness: at 60 fps from timestamp 0, a tick at t = 1 ms is
inside the frame budget and is a complete no-op; a tick at t = 1000 ms
runs exactly one scene update with the 640x480 origin screen rectangle. -/
theorem gameLoopTick_gate_witness :
    gameLoopTick 1 gameExample = (gameExample, []) ∧
    (gameLoopTick 1000 gameExample).2 =
      [⟨"title", "description", ⟨0, 0, 640, 480⟩, 60, 1⟩] := by
  constructor
  · exact (gameLoopTick_gate gameExample 1).1 (by norm_num [gameExample])
  · have h := (gameLoopTick_gate gameExample 1000).2 (by norm_num [gameExample])
    rw [h]
    norm_num [gameExample]

/-- Claim C1 (code evaluated at the failing input): removing an actor
that is not in the scene is not a no-op on a nonempty collection —
`indexOf` yields `-1` and `splice(-1, 1)` deletes the last actor.  Here a
scene holding only actor 0 loses that actor when the absent actor 1 is
removed. -/
theorem remove_absent_removes_last :
    (sceneRemove 1 oneActorScene).actors = [] ∧ oneActorScene.actors ≠ [] := by
  decide

/-! ### Event dispatcher: snapshot delivery (claim C2) -/

/-- Running any callback only ever extends an allocated listener array:
`addEventListener` pushes or allocates, `removeAllEventListener` drops
the table but leaves arrays intact.  No existing array element is ever
overwritten or removed. -/
theorem arrGet_runHAct (act : HAct) (s : DispatcherSt) (id : Nat) :
    ∃ tail, arrGet (runHAct act s) id = arrGet s id ++ tail := by
  induction act generalizing s with
  | noop => exact ⟨[], by simp [runHAct]⟩
  | clear => exact ⟨[], by simp [runHAct, removeAllEventListener, arrGet]⟩
  | add t h _ =>
    simp only [runHAct, addEventListener]
    cases hl : lookupTopic t s with
    | none =>
      rcases lt_trichotomy id s.arrays.length with hid | hid | hid
      · exact ⟨[], by
          simp [arrGet, List.getD_eq_getElem?_getD, List.getElem?_append_left hid]⟩
      · subst hid
        refine ⟨[h], ?_⟩
        simp [arrGet, List.getD_eq_getElem?_getD, List.getElem?_append_right (le_refl _),
          List.getElem?_eq_none (le_refl s.arrays.length)]
      · refine ⟨[], ?_⟩
        simp [arrGet, List.getD_eq_getElem?_getD,
          List.getElem?_append_right (le_of_lt hid),
          List.getElem?_eq_none (le_of_lt hid)]
        rw [List.getElem?_eq_none (by simp; omega)]
        simp
    | some j =>
      by_cases hij : j = id
      · subst hij
        by_cases hlen : j < s.arrays.length
        · exact ⟨[h], by simp [arrGet, List.getD_eq_getElem?_getD,
            List.getElem?_set_self hlen]⟩
        · exact ⟨[], by
            simp [arrGet, List.set_eq_of_length_le (le_of_not_lt hlen)]⟩
      · exact ⟨[], by simp [arrGet, List.getD_eq_getElem?_getD,
          List.getElem?_set_ne hij]⟩
  | seq a b iha ihb =>
    obtain ⟨t1, h1⟩ := iha s
    obtain ⟨t2, h2⟩ := ihb (runHAct a s)
    exact ⟨t1 ++ t2, by simp [runHAct, h2, h1]⟩

/-- The `forEach` loop of `dispatchEvent` invokes exactly the elements of
the snapshot the array held when the loop began, in order, no matter how
the invoked callbacks mutate the dispatcher. -/
theorem dispatchLoop_invoked (id : Nat) (snap : List HAct) :
    ∀ (fuel k : Nat) (s : DispatcherSt) (invoked : List HAct),
      (∃ tail, arrGet s id = snap ++ tail) →
      k + fuel = snap.length →
      (dispatchLoop id fuel k s invoked).2 = invoked ++ snap.drop k := by
  intro fuel
  induction fuel with
  | zero =>
    intro k s invoked _ hk
    have : snap.drop k = [] := List.drop_eq_nil_of_le (by omega)
    simp [dispatchLoop, this]
  | succ fuel ih =>
    intro k s invoked hext hk
    obtain ⟨tail, htail⟩ := hext
    have hklt : k < snap.length := by omega
    have hread : (arrGet s id)[k]? = some snap[k] := by
      rw [htail, List.getElem?_append_left hklt]
      exact List.getElem?_eq_getElem hklt
    simp only [dispatchLoop, hread]
    obtain ⟨tail', htail'⟩ := arrGet_runHAct snap[k] s id
    rw [ih (k + 1) _ _ ⟨tail ++ tail', by rw [htail', htail]; simp⟩ (by omega)]
    rw [List.drop_eq_getElem_cons hklt]
    simp

/-- Claim C2: `dispatchEvent` delivers synchronously over a stable
snapshot.  If no handler list is registered for the topic the dispatch
returns the state unchanged and invokes nothing (silent no-op);
otherwise the callbacks invoked are exactly the handler list registered
for the topic at the moment the dispatch starts, in registration order —
so handlers a callback registers for the topic mid-dispatch are not
invoked in the same dispatch, and a mid-dispatch
`removeAllEventListener` does not stop delivery to the remaining
already-registered handlers. -/
theorem dispatchEvent_stable_snapshot (s : DispatcherSt) (t : String) :
    (lookupTopic t s = none → dispatchEvent t s = (s, [])) ∧
    (∀ id, lookupTopic t s = some id → (dispatchEvent t s).2 = arrGet s id) := by
  constructor
  · intro h
    simp [dispatchEvent, h]
  · intro id h
    simp only [dispatchEvent, h]
    rw [dispatchLoop_invoked id (arrGet s id) (arrGet s id).length 0 s []
      ⟨[], by simp⟩ (by omega)]
    simp

/-- Claim C2 witness: three handlers registered under `'hit'` — the first
adds a fourth handler during the dispatch, the second clears all
registrations during the dispatch — and the dispatch still invokes
exactly the three originally registered handlers, in registration order. -/
theorem dispatchEvent_stable_snapshot_witness :
    (dispatchEvent "hit" dispatcherExample).2 =
      [HAct.add "hit" HAct.noop, HAct.clear, HAct.noop] :=
  ((dispatchEvent_stable_snapshot dispatcherExample "hit").2 0 (by decide)).trans
    (by decide)

/-! ### Actor position / hit-rectangle invariant (claim C4) -/

/-- Any run of position setters preserves the captured offsets and the
hit rectangle's dimensions, and (re-)establishes the coordinate coupling
set up by whichever setter ran last. -/
theorem foldl_applyMutation_inv (muts : List Mutation) (a : ActorObj) :
    (muts.foldl applyMutation a).hitAreaOffsetX = a.hitAreaOffsetX ∧
    (muts.foldl applyMutation a).hitAreaOffsetY = a.hitAreaOffsetY ∧
    (muts.foldl applyMutation a).hitArea.width = a.hitArea.width ∧
    (muts.foldl applyMutation a).hitArea.height = a.hitArea.height ∧
    (a.hitArea.x = a.x + a.hitAreaOffsetX →
      (muts.foldl applyMutation a).hitArea.x =
        (muts.foldl applyMutation a).x + a.hitAreaOffsetX) ∧
    (a.hitArea.y = a.y + a.hitAreaOffsetY →
      (muts.foldl applyMutation a).hitArea.y =
        (muts.foldl applyMutation a).y + a.hitAreaOffsetY) := by
  induction muts generalizing a with
  | nil => simp
  | cons m muts ih =>
    cases m with
    | mutX v =>
      have h := ih (setX v a)
      simp only [List.foldl_cons, applyMutation] at *
      refine ⟨h.1, h.2.1, h.2.2.1, h.2.2.2.1, ?_, ?_⟩
      · intro _
        have := h.2.2.2.2.1 (by simp [setX])
        simpa [setX] using this
      · intro hy
        have := h.2.2.2.2.2 (by simpa [setX] using hy)
        simpa [setX] using this
    | mutY v =>
      have h := ih (setY v a)
      simp only [List.foldl_cons, applyMutation] at *
      refine ⟨h.1, h.2.1, h.2.2.1, h.2.2.2.1, ?_, ?_⟩
      · intro hx
        have := h.2.2.2.2.1 (by simpa [setY] using hx)
        simpa [setY] using this
      · intro _
        have := h.2.2.2.2.2 (by simp [setY])
        simpa [setY] using this

/-- Claim C4: for an actor constructed from position `(x, y)` and hit
rectangle `rect`, after any sequence of x/y position mutations the hit
rectangle satisfies `hitArea.x = x + offsetX` and
`hitArea.y = y + offsetY`, where the offsets are the `x`/`y` of the
rectangle supplied at construction; the offsets (and the rectangle's
dimensions) are captured once at construction and never change.  Each
setter re-establishes the invariant before it returns, and nothing else
touches the rectangle, so no intermediate inconsistent state is
observable. -/
theorem hitArea_tracks_position (id : Nat) (x y : Int) (rect : Rectangle Int)
    (script : List Cmd) (muts : List Mutation) :
    (muts.foldl applyMutation (mkActor id x y rect script)).hitArea.x =
      (muts.foldl applyMutation (mkActor id x y rect script)).x + rect.x ∧
    (muts.foldl applyMutation (mkActor id x y rect script)).hitArea.y =
      (muts.foldl applyMutation (mkActor id x y rect script)).y + rect.y ∧
    (muts.foldl applyMutation (mkActor id x y rect script)).hitAreaOffsetX = rect.x ∧
    (muts.foldl applyMutation (mkActor id x y rect script)).hitAreaOffsetY = rect.y ∧
    (muts.foldl applyMutation (mkActor id x y rect script)).hitArea.width = rect.width ∧
    (muts.foldl applyMutation (mkActor id x y rect script)).hitArea.height = rect.height := by
  have h := foldl_applyMutation_inv muts (mkActor id x y rect script)
  have hx := h.2.2.2.2.1 (by simp [mkActor, setX, setY])
  have hy := h.2.2.2.2.2 (by simp [mkActor, setX, setY])
  refine ⟨?_, ?_, ?_, ?_, ?_, ?_⟩
  · simpa [mkActor, setX, setY] using hx
  · simpa [mkActor, setX, setY] using hy
  · simpa [mkActor, setX, setY] using h.1
  · simpa [mkActor, setX, setY] using h.2.1
  · simpa [mkActor, setX, setY] using h.2.2.1
  · simpa [mkActor, setX, setY] using h.2.2.2.1

/-! ### Scene pipeline lemmas

JavaScript identifies actors by object reference; the model's scenario
theorems therefore assume the ids in play are distinct, which makes the
id lookups below single-valued. -/

theorem actors_id_inj {l : List ActorObj} (h : (l.map ActorObj.id).Nodup)
    {a b : ActorObj} (ha : a ∈ l) (hb : b ∈ l) (hab : a.id = b.id) : a = b :=
  List.inj_on_of_nodup_map h ha hb hab

theorem find?_id_of_mem {l : List ActorObj} (h : (l.map ActorObj.id).Nodup)
    {a : ActorObj} (ha : a ∈ l) :
    l.find? (fun b => b.id == a.id) = some a := by
  induction l with
  | nil => cases ha
  | cons x xs ih =>
    simp only [List.map_cons, List.nodup_cons] at h
    rcases List.mem_cons.mp ha with rfl | hmem
    · simp
    · have hx : (x.id == a.id) = false := by
        refine beq_eq_false_iff_ne.mpr fun he => h.1 ?_
        exact he ▸ List.mem_map_of_mem ActorObj.id hmem
      rw [List.find?_cons, hx]
      exact ih h.2 hmem

/-- `consumeScript` touches only the script field. -/
theorem consumeScript_id (i : Nat) (b : ActorObj) : (consumeScript i b).id = b.id := by
  unfold consumeScript
  split <;> rfl

theorem consumeScript_listeners (i : Nat) (b : ActorObj) :
    (consumeScript i b).listeners = b.listeners := by
  unfold consumeScript
  split <;> rfl

theorem map_consumeScript_id (i : Nat) (l : List ActorObj) :
    (l.map (consumeScript i)).map ActorObj.id = l.map ActorObj.id := by
  induction l with
  | nil => rfl
  | cons x xs ih => simp [consumeScript_id, ih]

/-- Consuming the script of an actor whose script is already empty is
invisible: the mapped collection is unchanged. -/
theorem map_consumeScript_eq_self {l : List ActorObj} (h : (l.map ActorObj.id).Nodup)
    {a : ActorObj} (ha : a ∈ l) (hs : a.script = []) :
    l.map (consumeScript a.id) = l := by
  conv_rhs => rw [← List.map_id l]
  apply List.map_congr_left
  intro b hb
  unfold consumeScript
  by_cases hbid : b.id = a.id
  · have hba : b = a := actors_id_inj h hb ha hbid
    subst hba
    simp only [hbid, beq_self_eq_true, if_true, id]
    cases b
    simp_all
  · simp [hbid]

/-- Publishing a topic for which the publishing actor has no registered
listener only logs the publish. -/
theorem dispatchOn_no_listener (s : SceneSt) (selfId : Nat) (topic : String)
    (target : EvTarget)
    (h : ∀ a ∈ s.actors, a.id = selfId →
      a.listeners.filter (fun p => p.1 == topic) = []) :
    dispatchOn selfId topic target s =
      { s with log := s.log ++ [.dispatched selfId topic target.targetId] } := by
  simp only [dispatchOn]
  cases hf : List.find? (fun a => a.id == selfId) s.actors with
  | none => simp [hf]
  | some a =>
    have hmem : a ∈ s.actors := List.mem_of_find?_eq_some hf
    have hp := List.find?_some hf
    have hid : a.id = selfId := by simpa using hp
    simp [hf, h a hmem hid]

/-- Publishing a topic on an actor present in the collection runs exactly
that actor's listeners for the topic, in registration order, a throw
aborting the run. -/
theorem dispatchOn_found (s : SceneSt) (a : ActorObj) (topic : String)
    (target : EvTarget) (ha : a ∈ s.actors)
    (hnodup : (s.actors.map ActorObj.id).Nodup) :
    dispatchOn a.id topic target s =
      ((a.listeners.filter (fun p => p.1 == topic)).map Prod.snd).foldl
        (fun st tag => if st.thrown.isSome then st else runListener target tag st)
        { s with log := s.log ++ [.dispatched a.id topic target.targetId] } := by
  simp only [dispatchOn]
  rw [find?_id_of_mem hnodup ha]

/-- One update of an actor whose script is empty: the only observable
effect is the `update` call itself. -/
theorem actorUpdate_idle {s : SceneSt} {a : ActorObj} (ha : a ∈ s.actors)
    (hs : a.script = []) (hnodup : (s.actors.map ActorObj.id).Nodup) :
    actorUpdate a s = { s with log := s.log ++ [.updateCalled a.id] } := by
  unfold actorUpdate
  rw [hs, map_consumeScript_eq_self hnodup ha hs]
  rfl

/-- One update of a scene-subscribed actor whose script spawns child `c`:
the `update` call is logged, the `'spawnactor'` publish is logged, and
then the scene's `'spawnactor'` listener calls `this.add(e.target)` with
`e.target = undefined` and crashes with a TypeError; the child is never
appended to the live collection. -/
theorem actorUpdate_spawn {s : SceneSt} {a : ActorObj} {c : ActorSpec}
    (ha : a ∈ s.actors) (hscript : a.script = [Cmd.spawn c])
    (hlis : a.listeners = stdListeners)
    (hnodup : (s.actors.map ActorObj.id).Nodup)
    (ht : s.thrown = none) :
    actorUpdate a s =
      { s with
        actors := s.actors.map (consumeScript a.id)
        log := s.log ++ [.updateCalled a.id, .dispatched a.id "spawnactor" c.id]
        thrown := some JsError.typeError } := by
  have hconsume : consumeScript a.id a = { a with script := [] } := by
    simp [consumeScript]
  have hidA : (consumeScript a.id a).id = a.id := consumeScript_id _ _
  unfold actorUpdate
  rw [hscript]
  simp only [List.foldl_cons, List.foldl_nil, runCmd, ht]
  have hmem' : consumeScript a.id a ∈ s.actors.map (consumeScript a.id) :=
    List.mem_map_of_mem _ ha
  have hnodup' : ((s.actors.map (consumeScript a.id)).map ActorObj.id).Nodup := by
    rw [map_consumeScript_id]
    exact hnodup
  have hfound := dispatchOn_found
      { s with log := s.log ++ [.updateCalled a.id]
               actors := s.actors.map (consumeScript a.id) }
      (consumeScript a.id a) "spawnactor" (.spawned c) hmem' hnodup'
  rw [hidA, ht] at hfound
  simp only [Option.isSome_none, Bool.false_eq_true, if_false]
  rw [hfound, hconsume]
  simp [hlis, stdListeners, runListener, GameEvent.targetRead, EvTarget.targetId]

/-- One update of a scene-subscribed actor whose script destroys itself:
the `update` call and the `'destroy'` publish are logged, and the scene's
`'destroy'` listener runs `this._addDestroyedActor(e.target)` with
`e.target = undefined`, queueing `undefined` — not the actor — for
disposal; the actor itself stays in the live collection. -/
theorem actorUpdate_destroy {s : SceneSt} {a : ActorObj}
    (ha : a ∈ s.actors) (hscript : a.script = [Cmd.destroySelf])
    (hlis : a.listeners = stdListeners)
    (hnodup : (s.actors.map ActorObj.id).Nodup)
    (ht : s.thrown = none) :
    actorUpdate a s =
      { s with
        actors := s.actors.map (consumeScript a.id)
        destroyedActors := s.destroyedActors ++ [none]
        log := s.log ++ [.updateCalled a.id, .dispatched a.id "destroy" a.id] } := by
  have hconsume : consumeScript a.id a = { a with script := [] } := by
    simp [consumeScript]
  have hidA : (consumeScript a.id a).id = a.id := consumeScript_id _ _
  unfold actorUpdate
  rw [hscript]
  simp only [List.foldl_cons, List.foldl_nil, runCmd, ht]
  have hmem' : consumeScript a.id a ∈ s.actors.map (consumeScript a.id) :=
    List.mem_map_of_mem _ ha
  have hnodup' : ((s.actors.map (consumeScript a.id)).map ActorObj.id).Nodup := by
    rw [map_consumeScript_id]
    exact hnodup
  have hfound := dispatchOn_found
      { s with log := s.log ++ [.updateCalled a.id]
               actors := s.actors.map (consumeScript a.id) }
      (consumeScript a.id a) "destroy" (.ref a.id) hmem' hnodup'
  rw [hidA, ht] at hfound
  simp only [Option.isSome_none, Bool.false_eq_true, if_false]
  rw [hfound, hconsume]
  simp [hlis, stdListeners, runListener, GameEvent.targetRead, EvTarget.targetId]

/-- Once an iteration has thrown, the rest of the `forEach` loop never
runs. -/
theorem updateLoop_thrown {s : SceneSt} (h : s.thrown.isSome) :
    ∀ (fuel k : Nat), updateLoop fuel k s = s := by
  intro fuel k
  cases fuel with
  | zero => rfl
  | succ fuel => simp [updateLoop, h]

/-- The `forEach` loop splits over its fuel. -/
theorem updateLoop_add (f1 f2 : Nat) :
    ∀ (k : Nat) (s : SceneSt),
      updateLoop (f1 + f2) k s = updateLoop f2 (k + f1) (updateLoop f1 k s) := by
  induction f1 with
  | zero => intro k s; simp [updateLoop]
  | succ f1 ih =>
    intro k s
    rw [show f1 + 1 + f2 = (f1 + f2) + 1 by omega]
    by_cases ht : s.thrown.isSome
    · rw [updateLoop_thrown ht, updateLoop_thrown ht, updateLoop_thrown ht]
    · simp only [updateLoop, ht, Bool.false_eq_true, if_false]
      cases h : s.actors[k]? with
      | none =>
        dsimp only
        rw [ih, show k + (f1 + 1) = k + 1 + f1 by omega]
      | some a =>
        dsimp only
        rw [ih, show k + (f1 + 1) = k + 1 + f1 by omega]

/-- One step of the `forEach` loop at an index that holds an actor. -/
theorem updateLoop_one {s : SceneSt} {k : Nat} {a : ActorObj}
    (h : s.actors[k]? = some a) (ht : s.thrown = none) :
    updateLoop 1 k s = actorUpdate a s := by
  simp only [show (1 : Nat) = 0 + 1 from rfl, updateLoop, h, ht, Option.isSome_none,
    Bool.false_eq_true, if_false]

/-- A run of the update loop over a stretch of actors whose scripts are
all empty just logs their `update` calls, in collection order. -/
theorem updateLoop_idle_run (fuel : Nat) :
    ∀ (k : Nat) (s : SceneSt),
      (∀ m a, k ≤ m → m < k + fuel → s.actors[m]? = some a → a.script = []) →
      (s.actors.map ActorObj.id).Nodup →
      k + fuel ≤ s.actors.length →
      s.thrown = none →
      updateLoop fuel k s =
        { s with log := s.log ++
            ((s.actors.drop k).take fuel).map (fun a => .updateCalled a.id) } := by
  induction fuel with
  | zero =>
    intro k s _ _ _ _
    simp [updateLoop]
  | succ fuel ih =>
    intro k s hidle hnodup hbound ht
    have hk : k < s.actors.length := by omega
    have hread : s.actors[k]? = some s.actors[k] := List.getElem?_eq_getElem hk
    have hmem : s.actors[k] ∈ s.actors := List.getElem_mem hk
    have hscript : s.actors[k].script = [] :=
      hidle k _ (le_refl k) (by omega) hread
    simp only [updateLoop, hread, ht, Option.isSome_none, Bool.false_eq_true, if_false]
    rw [actorUpdate_idle hmem hscript hnodup]
    rw [ih (k + 1)
      { s with log := s.log ++ [.updateCalled s.actors[k].id] }
      (fun m a hm1 hm2 hr => hidle m a (by omega) (by omega) hr)
      hnodup (by simpa using by omega) ht]
    rw [List.drop_eq_getElem_cons hk]
    simp
    rw [List.drop_eq_getElem_cons
        (show k < (List.map (fun a => LogEntry.updateCalled a.id) s.actors).length by
          simpa using hk),
      List.take_succ_cons, List.getElem_map]
    exact ⟨rfl, ht⟩

/-- The value of a scene built by adding raw actors in order. -/
theorem buildScene_eq (as : List ActorObj) :
    buildScene as =
      { actors := as.map subscribeStd, destroyedActors := [], log := [],
        thrown := none } := by
  have general : ∀ (l : List ActorObj) (s : SceneSt),
      l.foldl (fun s a => sceneAdd a s) s =
        { s with actors := s.actors ++ l.map subscribeStd } := by
    intro l
    induction l with
    | nil => intro s; simp
    | cons x xs ih =>
      intro s
      simp only [List.foldl_cons, List.map_cons]
      rw [ih]
      simp [sceneAdd]
  unfold buildScene
  rw [general]
  simp [SceneSt.emptyScene]

/-- The render pass logs a `render` call for every actor, in collection
order, and changes nothing else. -/
theorem renderAll_eq (s : SceneSt) :
    renderAll s =
      { s with log := s.log ++ s.actors.map (fun a => .rendered a.id) } := by
  have general : ∀ (l : List ActorObj) (st : SceneSt),
      l.foldl (fun st a => { st with log := st.log ++ [.rendered a.id] }) st =
        { st with log := st.log ++ l.map (fun a => .rendered a.id) } := by
    intro l
    induction l with
    | nil => intro st; simp
    | cons x xs ih =>
      intro st
      simp only [List.foldl_cons, List.map_cons]
      rw [ih]
      simp
  unfold renderAll
  rw [general]

/-- Cleanup with an empty pending-destroy list is the identity. -/
theorem disposeDestroyedActors_nil {s : SceneSt} (h : s.destroyedActors = []) :
    disposeDestroyedActors s = s := by
  cases s with
  | mk actors destroyed log thrown =>
    simp only at h
    subst h
    unfold disposeDestroyedActors
    simp

/-- One collision-pass iteration on in-range indices: the hit test is
logged and, on overlap, the two `'hit'` publishes — nothing else changes
when no actor has a `'hit'` listener. -/
theorem hitStep_eq {s : SceneSt} {p : Nat × Nat} {o1 o2 : ActorObj}
    (h1 : s.actors[p.1]? = some o1) (h2 : s.actors[p.2]? = some o2)
    (hhit : ∀ a ∈ s.actors, a.listeners.filter (fun q => q.1 == "hit") = []) :
    hitStep s p = { s with log := s.log ++ hitPairLog o1 o2 } := by
  unfold hitStep
  rw [h1, h2]
  dsimp only
  by_cases hb : o1.hitArea.hitTest o2.hitArea = true
  · rw [if_pos hb]
    have e1 := dispatchOn_no_listener
      { s with log := s.log ++ [LogEntry.tested o1.id o2.id] }
      o1.id "hit" (EvTarget.ref o2.id) (fun a ha _ => hhit a ha)
    simp only [EvTarget.targetId] at e1
    rw [e1]
    have e2 := dispatchOn_no_listener
      { s with log := (s.log ++ [LogEntry.tested o1.id o2.id]) ++
          [LogEntry.dispatched o1.id "hit" o2.id] }
      o2.id "hit" (EvTarget.ref o1.id) (fun a ha _ => hhit a ha)
    simp only [EvTarget.targetId] at e2
    rw [e2]
    simp [hitPairLog, hb]
  · rw [if_neg hb]
    simp [hitPairLog, hb]

/-- Folding the collision step over any pair list only appends the
corresponding hit log. -/
theorem hitFold_eq : ∀ (ps : List (Nat × Nat)) (s : SceneSt),
    (∀ a ∈ s.actors, a.listeners.filter (fun q => q.1 == "hit") = []) →
    ps.foldl hitStep s = { s with log := s.log ++ hitLogOf s.actors ps } := by
  intro ps
  induction ps with
  | nil =>
    intro s _
    simp [hitLogOf]
  | cons p ps ih =>
    intro s hhit
    simp only [List.foldl_cons]
    cases hA : s.actors[p.1]? with
    | none =>
      have hstep : hitStep s p = s := by
        unfold hitStep
        rw [hA]
      rw [hstep, ih s hhit]
      simp [hitLogOf, List.flatMap_cons, hA]
    | some o1 =>
      cases hB : s.actors[p.2]? with
      | none =>
        have hstep : hitStep s p = s := by
          unfold hitStep
          rw [hA, hB]
        rw [hstep, ih s hhit]
        simp [hitLogOf, List.flatMap_cons, hA, hB]
      | some o2 =>
        rw [hitStep_eq hA hB hhit]
        rw [ih { s with log := s.log ++ hitPairLog o1 o2 } hhit]
        simp [hitLogOf, List.flatMap_cons, hA, hB]

/-- `Scene._hitTest` appends exactly the hit log of the upper-triangle
pair enumeration over the collection, and mutates nothing else. -/
theorem hitTestPass_eq (s : SceneSt)
    (hhit : ∀ a ∈ s.actors, a.listeners.filter (fun q => q.1 == "hit") = []) :
    hitTestPass s =
      { s with log := s.log ++ hitLogOf s.actors (pairIdx s.actors.length) } := by
  unfold hitTestPass
  exact hitFold_eq _ _ hhit

theorem pairIdx_mem {n : Nat} {p : Nat × Nat} :
    p ∈ pairIdx n ↔ p.1 < p.2 ∧ p.2 < n := by
  obtain ⟨i, j⟩ := p
  unfold pairIdx
  simp only [List.mem_flatMap, List.mem_map, List.mem_filter, List.mem_range]
  constructor
  · rintro ⟨i', hi', j', ⟨hj', hij'⟩, heq⟩
    obtain ⟨rfl, rfl⟩ := Prod.mk.injEq .. ▸ heq
    exact ⟨by simpa using hij', by simpa using hj'⟩
  · rintro ⟨h1, h2⟩
    exact ⟨i, by omega, j, ⟨by simpa using h2, by simpa using h1⟩, rfl⟩

theorem pairIdx_nodup (n : Nat) : (pairIdx n).Nodup := by
  unfold pairIdx
  refine List.nodup_flatMap.mpr ⟨?_, ?_⟩
  · intro i _
    exact ((List.nodup_range n).filter _).map
      (fun a b h => by simpa using (Prod.mk.injEq .. ▸ h : (i, a) = (i, b)))
  · refine (List.pairwise_lt_range n).imp ?_
    intro i1 i2 hlt q hq1 hq2
    simp only [Function.onFun, List.mem_map, List.mem_filter, List.mem_range] at hq1 hq2
    obtain ⟨j1, _, rfl⟩ := hq1
    obtain ⟨j2, _, heq⟩ := hq2
    obtain ⟨rfl, -⟩ := Prod.mk.injEq .. ▸ heq.symm
    omega

theorem count_flatMap_sum (e : LogEntry) (f : Nat × Nat → List LogEntry) :
    ∀ ps : List (Nat × Nat),
      (ps.flatMap f).count e = (ps.map (fun p => (f p).count e)).sum := by
  intro ps
  induction ps with
  | nil => simp
  | cons p ps ih => simp [List.flatMap_cons, List.count_append, ih]

theorem map_sum_single {α : Type} [DecidableEq α] (p0 : α) (c : Nat) (f : α → Nat) :
    ∀ l : List α, l.Nodup → p0 ∈ l → (∀ p ∈ l, f p = if p = p0 then c else 0) →
      (l.map f).sum = c := by
  intro l
  induction l with
  | nil => intro _ hm; cases hm
  | cons x xs ih =>
    intro hnd hm hf
    simp only [List.map_cons, List.sum_cons]
    rcases List.mem_cons.mp hm with heq | hm'
    · rw [hf x (by simp), if_pos heq.symm]
      have hz : (xs.map f).sum = 0 := by
        refine List.sum_eq_zero fun v hv => ?_
        obtain ⟨q, hq, rfl⟩ := List.mem_map.mp hv
        have hne : q ≠ p0 := by
          intro he
          exact (List.nodup_cons.mp hnd).1 (heq ▸ he ▸ hq)
        rw [hf q (by simp [hq]), if_neg hne]
      omega
    · have hx0 : x ≠ p0 := fun he => (List.nodup_cons.mp hnd).1 (he ▸ hm')
      rw [hf x (by simp), if_neg hx0]
      have := ih (List.nodup_cons.mp hnd).2 hm' (fun q hq => hf q (by simp [hq]))
      omega

/-- With distinct ids, equal ids at two positions force equal positions. -/
theorem getElem_id_inj {s : List ActorObj} (h : (s.map ActorObj.id).Nodup)
    {k1 k2 : Nat} (h1 : k1 < s.length) (h2 : k2 < s.length) :
    s[k1].id = s[k2].id ↔ k1 = k2 := by
  constructor
  · intro he
    have hml : k1 < (s.map ActorObj.id).length := by simpa using h1
    have hml2 : k2 < (s.map ActorObj.id).length := by simpa using h2
    have heq : (s.map ActorObj.id)[k1] = (s.map ActorObj.id)[k2] := by
      simpa using he
    exact h.getElem_inj_iff.mp heq
  · rintro rfl
    rfl

theorem count_hitPairLog_tested (a1 a2 : ActorObj) (x y : Nat) :
    (hitPairLog a1 a2).count (LogEntry.tested x y) =
      if a1.id = x ∧ a2.id = y then 1 else 0 := by
  by_cases hT : a1.hitArea.hitTest a2.hitArea = true <;>
    simp [hitPairLog, hT, List.count_cons, List.count_nil] <;>
    split_ifs <;> omega

theorem count_hitPairLog_dispatched (a1 a2 : ActorObj) (x y : Nat) :
    (hitPairLog a1 a2).count (LogEntry.dispatched x "hit" y) =
      if a1.hitArea.hitTest a2.hitArea then
        ((if a1.id = x ∧ a2.id = y then 1 else 0) +
         (if a2.id = x ∧ a1.id = y then 1 else 0))
      else 0 := by
  by_cases hT : a1.hitArea.hitTest a2.hitArea = true <;>
    simp [hitPairLog, hT, List.count_cons, List.count_nil] <;>
    split_ifs <;> omega

/-- Claim C6: in a collision pass over a collection with distinct ids and
no `'hit'` listeners registered, for every index pair `i < j` the pass
emits exactly one hit-test observation of that pair; if their hit areas
overlap exactly one `'hit'` event is published on each of the two actors,
each carrying the other as target, and if they do not overlap no `'hit'`
event mentioning that ordered pair is published at all.  The pass appends
to the log and leaves the collection untouched. -/
theorem hit_pass_pairs (s : SceneSt)
    (hhit : ∀ a ∈ s.actors, a.listeners.filter (fun q => q.1 == "hit") = [])
    (hnodup : (s.actors.map ActorObj.id).Nodup) :
    ∃ tail, (hitTestPass s).log = s.log ++ tail ∧
      (hitTestPass s).actors = s.actors ∧
      ∀ (i j : Nat) (o1 o2 : ActorObj), i < j →
        s.actors[i]? = some o1 → s.actors[j]? = some o2 →
        tail.count (LogEntry.tested o1.id o2.id) = 1 ∧
        tail.count (LogEntry.dispatched o1.id "hit" o2.id) =
          (if o1.hitArea.hitTest o2.hitArea then 1 else 0) ∧
        tail.count (LogEntry.dispatched o2.id "hit" o1.id) =
          (if o1.hitArea.hitTest o2.hitArea then 1 else 0) := by
  refine ⟨hitLogOf s.actors (pairIdx s.actors.length), ?_, ?_, ?_⟩
  · rw [hitTestPass_eq s hhit]
  · rw [hitTestPass_eq s hhit]
  · intro i j o1 o2 hij h1 h2
    obtain ⟨hi, ho1⟩ := List.getElem?_eq_some_iff.mp h1
    obtain ⟨hj, ho2⟩ := List.getElem?_eq_some_iff.mp h2
    have hpmem : (i, j) ∈ pairIdx s.actors.length := pairIdx_mem.mpr ⟨hij, hj⟩
    have keyfacts : ∀ p ∈ pairIdx s.actors.length,
        ∃ hq1 : p.1 < s.actors.length, ∃ hq2 : p.2 < s.actors.length,
          s.actors[p.1]? = some s.actors[p.1] ∧
          s.actors[p.2]? = some s.actors[p.2] ∧
          (s.actors[p.1].id = o1.id ↔ p.1 = i) ∧
          (s.actors[p.2].id = o2.id ↔ p.2 = j) ∧
          (s.actors[p.2].id = o1.id ↔ p.2 = i) ∧
          (s.actors[p.1].id = o2.id ↔ p.1 = j) := by
      intro p hp
      obtain ⟨hp1, hp2⟩ := pairIdx_mem.mp hp
      have hq1 : p.1 < s.actors.length := by omega
      refine ⟨hq1, hp2, List.getElem?_eq_getElem hq1, List.getElem?_eq_getElem hp2,
        ?_, ?_, ?_, ?_⟩
      · rw [← ho1]
        exact getElem_id_inj hnodup hq1 hi
      · rw [← ho2]
        exact getElem_id_inj hnodup hp2 hj
      · rw [← ho1]
        exact getElem_id_inj hnodup hp2 hi
      · rw [← ho2]
        exact getElem_id_inj hnodup hq1 hj
    unfold hitLogOf
    refine ⟨?_, ?_, ?_⟩
    · rw [count_flatMap_sum]
      refine map_sum_single (i, j) 1 _ _ (pairIdx_nodup _) hpmem ?_
      intro p hp
      obtain ⟨hq1, hq2, hr1, hr2, e11, e22, e21, e12⟩ := keyfacts p hp
      obtain ⟨hp1, hp2⟩ := pairIdx_mem.mp hp
      rw [hr1, hr2]
      dsimp only
      rw [count_hitPairLog_tested]
      by_cases hpij : p = (i, j)
      · subst hpij
        simp only [e11, e22]
        simp
      · rw [if_neg, if_neg hpij]
        intro hand
        exact hpij (Prod.ext (e11.mp hand.1) (e22.mp hand.2))
    · rw [count_flatMap_sum]
      refine map_sum_single (i, j) _ _ _ (pairIdx_nodup _) hpmem ?_
      intro p hp
      obtain ⟨hq1, hq2, hr1, hr2, e11, e22, e21, e12⟩ := keyfacts p hp
      obtain ⟨hp1, hp2⟩ := pairIdx_mem.mp hp
      rw [hr1, hr2]
      dsimp only
      rw [count_hitPairLog_dispatched]
      by_cases hpij : p = (i, j)
      · subst hpij
        have hc2 : ¬(s.actors[(i, j).2].id = o1.id ∧ s.actors[(i, j).1].id = o2.id) := by
          intro hand
          have := e21.mp hand.1
          omega
        simp only [e11, e22, if_neg hc2]
        have heq1 : s.actors[(i, j).1] = o1 := ho1
        have heq2 : s.actors[(i, j).2] = o2 := ho2
        rw [heq1, heq2]
        simp
      · have hc1 : ¬(s.actors[p.1].id = o1.id ∧ s.actors[p.2].id = o2.id) := by
          intro hand
          exact hpij (Prod.ext (e11.mp hand.1) (e22.mp hand.2))
        have hc2 : ¬(s.actors[p.2].id = o1.id ∧ s.actors[p.1].id = o2.id) := by
          intro hand
          have hx := e21.mp hand.1
          have hy := e12.mp hand.2
          omega
        rw [if_neg hpij]
        rw [if_neg hc1, if_neg hc2]
        split <;> rfl
    · rw [count_flatMap_sum]
      refine map_sum_single (i, j) _ _ _ (pairIdx_nodup _) hpmem ?_
      intro p hp
      obtain ⟨hq1, hq2, hr1, hr2, e11, e22, e21, e12⟩ := keyfacts p hp
      obtain ⟨hp1, hp2⟩ := pairIdx_mem.mp hp
      rw [hr1, hr2]
      dsimp only
      rw [count_hitPairLog_dispatched]
      by_cases hpij : p = (i, j)
      · subst hpij
        have hc1 : ¬(s.actors[(i, j).1].id = o2.id ∧ s.actors[(i, j).2].id = o1.id) := by
          intro hand
          have := e12.mp hand.1
          omega
        simp only [e21, e22, if_neg hc1]
        have heq1 : s.actors[(i, j).1] = o1 := ho1
        have heq2 : s.actors[(i, j).2] = o2 := ho2
        rw [heq1, heq2]
        have hne : ¬(o1.id = o2.id ∧ j = i) := fun h => absurd h.2 (by omega)
        simp [hne]
      · have hc1 : ¬(s.actors[p.1].id = o2.id ∧ s.actors[p.2].id = o1.id) := by
          intro hand
          have hx := e12.mp hand.1
          have hy := e21.mp hand.2
          omega
        have hc2 : ¬(s.actors[p.2].id = o2.id ∧ s.actors[p.1].id = o1.id) := by
          intro hand
          exact hpij (Prod.ext (e11.mp hand.2) (e22.mp hand.1))
        rw [if_neg hpij]
        rw [if_neg hc1, if_neg hc2]
        split <;> rfl

/-- Claim C6 witness: the spec's example [A, B, C] with A∩B and B∩C but
not A∩C — exactly one `'hit'` publish on each side of the two overlapping
pairs, none between A and C, and the A-C pair still hit-tested exactly
once. -/
theorem hit_pass_pairs_witness :
    (hitTestPass chainScene).log.count (LogEntry.dispatched 0 "hit" 1) = 1 ∧
    (hitTestPass chainScene).log.count (LogEntry.dispatched 1 "hit" 0) = 1 ∧
    (hitTestPass chainScene).log.count (LogEntry.dispatched 1 "hit" 2) = 1 ∧
    (hitTestPass chainScene).log.count (LogEntry.dispatched 2 "hit" 1) = 1 ∧
    (hitTestPass chainScene).log.count (LogEntry.dispatched 0 "hit" 2) = 0 ∧
    (hitTestPass chainScene).log.count (LogEntry.dispatched 2 "hit" 0) = 0 ∧
    (hitTestPass chainScene).log.count (LogEntry.tested 0 2) = 1 := by
  obtain ⟨tail, hlog, _, h⟩ := hit_pass_pairs chainScene (by decide) (by decide)
  have e0 : chainScene.actors[0]? =
      some (subscribeStd (mkActor 0 0 0 ⟨0, 0, 10, 10⟩ [])) := by decide
  have e1 : chainScene.actors[1]? =
      some (subscribeStd (mkActor 1 9 0 ⟨0, 0, 10, 10⟩ [])) := by decide
  have e2 : chainScene.actors[2]? =
      some (subscribeStd (mkActor 2 18 0 ⟨0, 0, 10, 10⟩ [])) := by decide
  have h01 := h 0 1 _ _ (by omega) e0 e1
  have h02 := h 0 2 _ _ (by omega) e0 e2
  have h12 := h 1 2 _ _ (by omega) e1 e2
  rw [hlog, show chainScene.log = [] from rfl, List.nil_append]
  obtain ⟨t01, d01, d01r⟩ := h01
  obtain ⟨t02, d02, d02r⟩ := h02
  obtain ⟨t12, d12, d12r⟩ := h12
  refine ⟨?_, ?_, ?_, ?_, ?_, ?_, ?_⟩
  · simpa using d01
  · simpa using d01r
  · simpa using d12
  · simpa using d12r
  · simpa using d02
  · simpa using d02r
  · simpa using t02

theorem subscribeStd_id (x : ActorObj) : (subscribeStd x).id = x.id := rfl

theorem subscribeStd_script (x : ActorObj) : (subscribeStd x).script = x.script := rfl

theorem subscribeStd_listeners (x : ActorObj) :
    (subscribeStd x).listeners = x.listeners ++ stdListeners := rfl

/-- Unfolding one `forEach` step when the index is in range and no
exception is pending. -/
theorem updateLoop_succ_some {s : SceneSt} {fuel k : Nat} {a : ActorObj}
    (h : s.actors[k]? = some a) (ht : s.thrown = none) :
    updateLoop (fuel + 1) k s = updateLoop fuel (k + 1) (actorUpdate a s) := by
  simp only [updateLoop, h, ht, Option.isSome_none, Bool.false_eq_true, if_false]

/-- The update pass over a three-actor collection is three single steps. -/
theorem updateAll_three (s : SceneSt) (x y z : ActorObj) (h : s.actors = [x, y, z]) :
    updateAll s = updateLoop 1 2 (updateLoop 1 1 (updateLoop 1 0 s)) := by
  unfold updateAll
  rw [h, show ([x, y, z] : List ActorObj).length = 1 + (1 + 1) from rfl]
  rw [updateLoop_add, updateLoop_add]

theorem updateLoop_idle_step (s : SceneSt) (k : Nat) (x : ActorObj)
    (h : s.actors[k]? = some x) (hm : x ∈ s.actors) (hs : x.script = [])
    (hn : (s.actors.map ActorObj.id).Nodup) (ht : s.thrown = none) :
    updateLoop 1 k s = { s with log := s.log ++ [LogEntry.updateCalled x.id] } := by
  rw [updateLoop_one h ht, actorUpdate_idle hm hs hn]

theorem updateLoop_destroy_step (s : SceneSt) (k : Nat) (x : ActorObj)
    (h : s.actors[k]? = some x) (hm : x ∈ s.actors)
    (hs : x.script = [Cmd.destroySelf]) (hl : x.listeners = stdListeners)
    (hn : (s.actors.map ActorObj.id).Nodup) (ht : s.thrown = none) :
    updateLoop 1 k s =
      { s with
        actors := s.actors.map (consumeScript x.id)
        destroyedActors := s.destroyedActors ++ [none]
        log := s.log ++ [.updateCalled x.id, .dispatched x.id "destroy" x.id] } := by
  rw [updateLoop_one h ht, actorUpdate_destroy hm hs hl hn ht]

theorem updateLoop_spawn_step (s : SceneSt) (k : Nat) (x : ActorObj) (c : ActorSpec)
    (h : s.actors[k]? = some x) (hm : x ∈ s.actors)
    (hs : x.script = [Cmd.spawn c]) (hl : x.listeners = stdListeners)
    (hn : (s.actors.map ActorObj.id).Nodup) (ht : s.thrown = none) :
    updateLoop 1 k s =
      { s with
        actors := s.actors.map (consumeScript x.id)
        log := s.log ++ [.updateCalled x.id, .dispatched x.id "spawnactor" c.id]
        thrown := some JsError.typeError } := by
  rw [updateLoop_one h ht, actorUpdate_spawn hm hs hl hn ht]

/-- Cleanup with a single pending entry is one `remove` plus the reset. -/
theorem dispose_single (ref : Option Nat) {s : SceneSt}
    (h : s.destroyedActors = [ref]) :
    disposeDestroyedActors s =
      { sceneRemoveRef ref s with destroyedActors := [] } := by
  unfold disposeDestroyedActors
  rw [h]
  rfl

theorem sceneRemove_found (tid i : Nat) {s : SceneSt}
    (h : s.actors.findIdx? (fun a => a.id == tid) = some i) :
    sceneRemove tid s = { s with actors := s.actors.eraseIdx i } := by
  unfold sceneRemove
  rw [h]

/-- When no stage throws, `Scene.update` runs the whole pipeline. -/
theorem sceneUpdate_of_thrown_none {s : SceneSt}
    (h1 : (updateAll s).thrown = none)
    (h2 : (hitTestPass (updateAll s)).thrown = none) :
    sceneUpdate s =
      renderAll (clearScreen (disposeDestroyedActors (hitTestPass (updateAll s)))) := by
  unfold sceneUpdate
  simp only [h1, h2, Option.isSome_none, Bool.false_eq_true, if_false]

/-- When the update pass throws, `Scene.update` is cut short there: the
collision pass, the cleanup, the clear and the render pass never run. -/
theorem sceneUpdate_of_throw {s t : SceneSt} (hA : updateAll s = t)
    (h1 : t.thrown.isSome) : sceneUpdate s = t := by
  unfold sceneUpdate
  rw [hA]
  simp [h1]

/-- Claim C5: a scene with actors A, B, C added in that order, where only
B publishes its `destroy` event during the update pass.  The claim says
the frame ends with exactly A and C; in the code the `'destroy'` listener
reads `e.target` — which is `undefined`, since `GameEvent` stores the
payload in `_target` — so cleanup calls `remove(undefined)`, `indexOf`
returns `-1`, and `splice(-1, 1)` deletes the LAST actor: the frame ends
with A and B, with the supposedly destroyed B still live and the innocent
C removed. -/
theorem destroy_mid_update_removes_last (a b c : ActorObj)
    (has : a.script = []) (hal : a.listeners = [])
    (hbs : b.script = [Cmd.destroySelf]) (hbl : b.listeners = [])
    (hcs : c.script = []) (hcl : c.listeners = [])
    (hnodup : ([a, b, c].map ActorObj.id).Nodup) :
    (sceneUpdate (buildScene [a, b, c])).actors.map ActorObj.id = [a.id, b.id] ∧
    (sceneUpdate (buildScene [a, b, c])).actors.map ActorObj.id ≠ [a.id, c.id] := by
  have hab : a.id ≠ b.id := by simp [List.nodup_cons] at hnodup; tauto
  have hac : a.id ≠ c.id := by simp [List.nodup_cons] at hnodup; tauto
  have hbc : b.id ≠ c.id := by simp [List.nodup_cons] at hnodup; tauto
  have hA : updateAll (buildScene [a, b, c]) =
      { actors := [subscribeStd a, { subscribeStd b with script := [] },
          subscribeStd c]
        destroyedActors := [none]
        log := [LogEntry.updateCalled a.id, LogEntry.updateCalled b.id,
          LogEntry.dispatched b.id "destroy" b.id, LogEntry.updateCalled c.id]
        thrown := none } := by
    rw [buildScene_eq]
    rw [updateAll_three _ (subscribeStd a) (subscribeStd b) (subscribeStd c) (by simp)]
    rw [updateLoop_idle_step _ 0 (subscribeStd a) (by simp) (by simp)
      (by simp [subscribeStd_script, has])
      (by simp [subscribeStd_id, List.nodup_cons]; tauto) (by rfl)]
    rw [updateLoop_destroy_step _ 1 (subscribeStd b) (by simp) (by simp)
      (by simp [subscribeStd_script, hbs])
      (by simp [subscribeStd_listeners, hbl])
      (by simp [subscribeStd_id, List.nodup_cons]; tauto) (by rfl)]
    rw [updateLoop_idle_step _ 2 (consumeScript (subscribeStd b).id (subscribeStd c))
      (by simp) (by simp)
      (by simp [consumeScript, subscribeStd_id, subscribeStd_script, hcs, Ne.symm hbc])
      (by simp [consumeScript_id, subscribeStd_id, List.nodup_cons, hab, hac, hbc])
      (by rfl)]
    simp [consumeScript, subscribeStd_id, hab, Ne.symm hbc]
  have hhitA : ∀ x ∈ (updateAll (buildScene [a, b, c])).actors,
      x.listeners.filter (fun q => q.1 == "hit") = [] := by
    rw [hA]
    intro x hx
    simp only [List.mem_cons, List.not_mem_nil, or_false] at hx
    rcases hx with rfl | rfl | rfl <;>
      simp [subscribeStd_listeners, hal, hbl, hcl, stdListeners]
  have hH := hitTestPass_eq _ hhitA
  have hmain : (sceneUpdate (buildScene [a, b, c])).actors.map ActorObj.id =
      [a.id, b.id] := by
    rw [sceneUpdate_of_thrown_none (by rw [hA]) (by rw [hH, hA])]
    rw [hH, hA]
    rw [dispose_single none (by rfl)]
    rw [renderAll_eq]
    simp [clearScreen, sceneRemoveRef, subscribeStd_id, List.eraseIdx]
  refine ⟨hmain, ?_⟩
  rw [hmain]
  simp [hbc]

/-- Claim C5 witness: three concrete actors with ids 0, 1, 2 where actor 1
destroys itself mid-update — the collection after the frame is [0, 1],
not the [0, 2] the spec promises. -/
theorem destroy_mid_update_removes_last_witness :
    (sceneUpdate (buildScene
      [mkActor 0 0 0 ⟨0, 0, 1, 1⟩ [],
       mkActor 1 5 0 ⟨0, 0, 1, 1⟩ [Cmd.destroySelf],
       mkActor 2 9 0 ⟨0, 0, 1, 1⟩ []])).actors.map ActorObj.id = [0, 1] ∧
    (sceneUpdate (buildScene
      [mkActor 0 0 0 ⟨0, 0, 1, 1⟩ [],
       mkActor 1 5 0 ⟨0, 0, 1, 1⟩ [Cmd.destroySelf],
       mkActor 2 9 0 ⟨0, 0, 1, 1⟩ []])).actors.map ActorObj.id ≠ [0, 2] := by
  have h := destroy_mid_update_removes_last
    (mkActor 0 0 0 ⟨0, 0, 1, 1⟩ [])
    (mkActor 1 5 0 ⟨0, 0, 1, 1⟩ [Cmd.destroySelf])
    (mkActor 2 9 0 ⟨0, 0, 1, 1⟩ [])
    rfl rfl rfl rfl rfl rfl (by decide)
  exact ⟨by simpa using h.1, by simpa using h.2⟩

theorem map_consumeScript_of_ne {l : List ActorObj} {i : Nat}
    (h : ∀ x ∈ l, x.id ≠ i) : l.map (consumeScript i) = l := by
  conv_rhs => rw [← List.map_id l]
  refine List.map_congr_left fun x hx => ?_
  simp [consumeScript, h x hx]

theorem consumeScript_self {x : ActorObj} {i : Nat} (h : x.id = i) :
    consumeScript i x = { x with script := [] } := by
  simp [consumeScript, h]

/-- Distinct ids across an append: an actor of the left part never shares
its id with one of the right part. -/
theorem ids_disjoint {l1 l2 : List ActorObj}
    (h : ((l1 ++ l2).map ActorObj.id).Nodup) :
    ∀ x ∈ l1, ∀ y ∈ l2, x.id ≠ y.id := by
  intro x hx y hy he
  rw [List.map_append] at h
  exact List.disjoint_of_nodup_append h (List.mem_map_of_mem _ hx)
    (he ▸ List.mem_map_of_mem _ hy)

/-- In a distinct-id collection `pre ++ [sp] ++ post`, no actor of `pre`
or `post` shares `sp`'s id. -/
theorem middle_id_unique {pre post : List ActorObj} {sp : ActorObj}
    (h : ((pre ++ [sp] ++ post).map ActorObj.id).Nodup) :
    (∀ x ∈ pre, x.id ≠ sp.id) ∧ (∀ x ∈ post, x.id ≠ sp.id) := by
  have hcnt := List.nodup_iff_count_le_one.mp h sp.id
  rw [List.map_append, List.map_append, List.count_append, List.count_append] at hcnt
  have hone : (List.map ActorObj.id [sp]).count sp.id = 1 := by simp
  rw [hone] at hcnt
  constructor
  · intro x hx he
    have hpos : 0 < (pre.map ActorObj.id).count sp.id := by
      rw [List.count_pos_iff, ← he]
      exact List.mem_map_of_mem _ hx
    omega
  · intro x hx he
    have hpos : 0 < (post.map ActorObj.id).count sp.id := by
      rw [List.count_pos_iff, ← he]
      exact List.mem_map_of_mem _ hx
    omega

/-- The update pass over `pre ++ [sp] ++ post` — all idle except `sp`,
whose script spawns `d` — updates the `pre` stretch and `sp` in order,
then the `'spawnactor'` listener crashes in `this.add(undefined)`: the
pass aborts with a TypeError before any `post` actor is updated, and the
child is never appended to the collection. -/
theorem updateAll_spawn_scene (pre post : List ActorObj) (sp : ActorObj) (d : ActorSpec)
    (hpre : ∀ x ∈ pre, x.script = [] ∧ x.listeners = [])
    (hsps : sp.script = [Cmd.spawn d]) (hspl : sp.listeners = [])
    (hnodup : ((pre ++ [sp] ++ post).map ActorObj.id ++ [d.id]).Nodup) :
    updateAll ⟨(pre ++ [sp] ++ post).map subscribeStd, [], [], none⟩ =
      { actors := pre.map subscribeStd ++ [{ subscribeStd sp with script := [] }] ++
          post.map subscribeStd
        destroyedActors := []
        log := pre.map (fun x => LogEntry.updateCalled x.id) ++
          [LogEntry.updateCalled sp.id, LogEntry.dispatched sp.id "spawnactor" d.id]
        thrown := some JsError.typeError } := by
  have horig : ((pre ++ [sp] ++ post).map ActorObj.id).Nodup := hnodup.of_append_left
  obtain ⟨hPne, hQne⟩ := middle_id_unique horig
  rw [show ((pre ++ [sp] ++ post).map subscribeStd) =
      pre.map subscribeStd ++ [subscribeStd sp] ++ post.map subscribeStd from by simp]
  have hidseq : ((pre.map subscribeStd ++ [subscribeStd sp] ++ post.map subscribeStd).map
      ActorObj.id) = (pre ++ [sp] ++ post).map ActorObj.id := by
    simp [List.map_map, Function.comp_def, subscribeStd_id]
  unfold updateAll
  rw [show (({ actors := pre.map subscribeStd ++ [subscribeStd sp] ++ post.map subscribeStd
               destroyedActors := []
               log := []
               thrown := none } : SceneSt)).actors.length =
      pre.length + (1 + post.length) from by simp; omega]
  rw [updateLoop_add]
  rw [updateLoop_idle_run pre.length 0 _
    (by
      intro m x hm0 hmlt hr
      dsimp only at hr
      rw [List.getElem?_append_left (by simp; omega)] at hr
      rw [List.getElem?_append_left (by simp; omega)] at hr
      obtain ⟨y, hy, rfl⟩ := List.mem_map.mp (List.getElem?_mem hr)
      simp [subscribeStd_script, (hpre y hy).1])
    (by dsimp only; rw [hidseq]; exact horig)
    (by simp) (by rfl)]
  dsimp only
  rw [show ((pre.map subscribeStd ++ [subscribeStd sp] ++ post.map subscribeStd).drop 0).take
      pre.length = pre.map subscribeStd from by
    rw [List.drop_zero, List.append_assoc, List.take_left' (by simp)]]
  rw [updateLoop_add]
  simp only [Nat.zero_add]
  rw [updateLoop_spawn_step _ pre.length (subscribeStd sp) d
    (by
      dsimp only
      rw [List.append_assoc, List.getElem?_append_right (by simp)]
      simp)
    (by simp)
    (by simp [subscribeStd_script, hsps])
    (by simp [subscribeStd_listeners, hspl])
    (by dsimp only; rw [hidseq]; exact horig) (by rfl)]
  refine (updateLoop_thrown (by rfl) post.length (pre.length + 1)).trans ?_
  rw [show (pre.map subscribeStd ++ [subscribeStd sp] ++ post.map subscribeStd).map
      (consumeScript (subscribeStd sp).id) =
      pre.map subscribeStd ++ [{ subscribeStd sp with script := [] }] ++
        post.map subscribeStd from by
    simp only [List.map_append]
    rw [show List.map (consumeScript (subscribeStd sp).id) [subscribeStd sp] =
        [{ subscribeStd sp with script := [] }] from by
      simp [consumeScript_self]]
    rw [map_consumeScript_of_ne (by
      intro x hx
      obtain ⟨y, hy, rfl⟩ := List.mem_map.mp hx
      simp [subscribeStd_id, hPne y hy])]
    rw [map_consumeScript_of_ne (by
      intro x hx
      obtain ⟨y, hy, rfl⟩ := List.mem_map.mp hx
      simp [subscribeStd_id, hQne y hy])]]
  simp [Function.comp_def, subscribeStd_id]

/-- Claim C3: the spec says an actor spawned mid-update is skipped by the
update pass, hit-tested, rendered that frame, and updated next frame.  In
the code the scene's `'spawnactor'` listener reads `e.target` — which is
`undefined`, since `GameEvent` stores its payload in `_target` and
declares no `target` member — so it calls `Scene.add(undefined)`, which
throws a TypeError on `undefined.addEventListener`.  The frame aborts
mid-update: the child is never added to the collection, the actors after
the spawner are never updated, nothing is hit-tested and nothing is
rendered; there is no next frame to update the child in. -/
theorem spawn_during_update_crashes (pre post : List ActorObj) (sp : ActorObj)
    (d : ActorSpec)
    (hpre : ∀ x ∈ pre, x.script = [] ∧ x.listeners = [])
    (hsps : sp.script = [Cmd.spawn d]) (hspl : sp.listeners = [])
    (hnodup : ((pre ++ [sp] ++ post).map ActorObj.id ++ [d.id]).Nodup) :
    (sceneUpdate (buildScene (pre ++ [sp] ++ post))).thrown = some JsError.typeError ∧
    (sceneUpdate (buildScene (pre ++ [sp] ++ post))).actors.map ActorObj.id =
      (pre ++ [sp] ++ post).map ActorObj.id ∧
    LogEntry.updateCalled d.id ∉ (sceneUpdate (buildScene (pre ++ [sp] ++ post))).log ∧
    (∀ x ∈ post, LogEntry.updateCalled x.id ∉
      (sceneUpdate (buildScene (pre ++ [sp] ++ post))).log) ∧
    (∀ i j : Nat, LogEntry.tested i j ∉
      (sceneUpdate (buildScene (pre ++ [sp] ++ post))).log) ∧
    LogEntry.rendered d.id ∉ (sceneUpdate (buildScene (pre ++ [sp] ++ post))).log := by
  have horig : ((pre ++ [sp] ++ post).map ActorObj.id).Nodup := hnodup.of_append_left
  have hdfresh : ∀ x ∈ pre ++ [sp] ++ post, x.id ≠ d.id := by
    intro x hx he
    have hmem : d.id ∈ (pre ++ [sp] ++ post).map ActorObj.id := by
      rw [← he]
      exact List.mem_map_of_mem _ hx
    exact List.disjoint_of_nodup_append hnodup hmem (by simp)
  have hdisj : ∀ x ∈ pre ++ [sp], ∀ y ∈ post, x.id ≠ y.id := ids_disjoint horig
  set AU : List ActorObj := pre.map subscribeStd ++
      ([{ subscribeStd sp with script := [] }] : List ActorObj) ++
      post.map subscribeStd with hAUdef
  set LU : List LogEntry := pre.map (fun x => LogEntry.updateCalled x.id) ++
      [LogEntry.updateCalled sp.id, LogEntry.dispatched sp.id "spawnactor" d.id]
      with hLUdef
  have hAeq : updateAll (buildScene (pre ++ [sp] ++ post)) =
      ⟨AU, [], LU, some JsError.typeError⟩ := by
    rw [buildScene_eq]
    exact updateAll_spawn_scene pre post sp d hpre hsps hspl hnodup
  have hsceneEq : sceneUpdate (buildScene (pre ++ [sp] ++ post)) =
      ⟨AU, [], LU, some JsError.typeError⟩ :=
    sceneUpdate_of_throw hAeq rfl
  have hLUmem : ∀ e ∈ LU,
      (∃ y ∈ pre, e = LogEntry.updateCalled y.id) ∨
      e = LogEntry.updateCalled sp.id ∨
      e = LogEntry.dispatched sp.id "spawnactor" d.id := by
    intro e he
    rw [hLUdef] at he
    rcases List.mem_append.mp he with he | he
    · obtain ⟨y, hy, hye⟩ := List.mem_map.mp he
      exact Or.inl ⟨y, hy, hye.symm⟩
    · rcases List.mem_cons.mp he with he | he
      · exact Or.inr (Or.inl he)
      · rcases List.mem_cons.mp he with he | he
        · exact Or.inr (Or.inr he)
        · simp at he
  refine ⟨?_, ?_, ?_, ?_, ?_, ?_⟩
  · -- the frame dies with a TypeError
    rw [hsceneEq]
  · -- the collection still holds exactly the original actors: no child
    rw [hsceneEq]
    dsimp only
    rw [hAUdef]
    simp [List.map_map, Function.comp_def, subscribeStd_id]
  · -- D is never updated
    rw [hsceneEq]
    intro hmem
    dsimp only at hmem
    rcases hLUmem _ hmem with ⟨y, hy, hye⟩ | he | he
    · exact hdfresh y (by simp [hy])
        (show y.id = d.id from (show d.id = y.id by simpa using hye).symm)
    · exact hdfresh sp (by simp)
        (show sp.id = d.id from (show d.id = sp.id by simpa using he).symm)
    · exact LogEntry.noConfusion he
  · -- the actors after the spawner are never updated
    rw [hsceneEq]
    intro x hx hmem
    dsimp only at hmem
    rcases hLUmem _ hmem with ⟨y, hy, hye⟩ | he | he
    · exact hdisj y (by simp [hy]) x hx
        (show y.id = x.id from (show x.id = y.id by simpa using hye).symm)
    · exact hdisj sp (by simp) x hx
        (show sp.id = x.id from (show x.id = sp.id by simpa using he).symm)
    · exact LogEntry.noConfusion he
  · -- no hit test ever runs
    rw [hsceneEq]
    intro i j hmem
    dsimp only at hmem
    rcases hLUmem _ hmem with ⟨y, hy, hye⟩ | he | he
    · exact LogEntry.noConfusion hye
    · exact LogEntry.noConfusion he
    · exact LogEntry.noConfusion he
  · -- D is never rendered
    rw [hsceneEq]
    intro hmem
    dsimp only at hmem
    rcases hLUmem _ hmem with ⟨y, hy, hye⟩ | he | he
    · exact LogEntry.noConfusion hye
    · exact LogEntry.noConfusion he
    · exact LogEntry.noConfusion he

/-- Claim C3 witness: a single actor (id 0) spawning child id 1 — the
frame ends in a TypeError with the collection still `[0]`, and the child
is never updated and never rendered. -/
theorem spawn_during_update_crashes_witness :
    (sceneUpdate (buildScene
      [mkActor 0 0 0 ⟨0, 0, 5, 5⟩ [Cmd.spawn ⟨1, 2, 0, ⟨0, 0, 5, 5⟩⟩]])).thrown =
        some JsError.typeError ∧
    (sceneUpdate (buildScene
      [mkActor 0 0 0 ⟨0, 0, 5, 5⟩ [Cmd.spawn ⟨1, 2, 0, ⟨0, 0, 5, 5⟩⟩]])).actors.map
        ActorObj.id = [0] ∧
    LogEntry.updateCalled 1 ∉ (sceneUpdate (buildScene
      [mkActor 0 0 0 ⟨0, 0, 5, 5⟩ [Cmd.spawn ⟨1, 2, 0, ⟨0, 0, 5, 5⟩⟩]])).log ∧
    LogEntry.rendered 1 ∉ (sceneUpdate (buildScene
      [mkActor 0 0 0 ⟨0, 0, 5, 5⟩ [Cmd.spawn ⟨1, 2, 0, ⟨0, 0, 5, 5⟩⟩]])).log := by
  have h := spawn_during_update_crashes [] []
    (mkActor 0 0 0 ⟨0, 0, 5, 5⟩ [Cmd.spawn ⟨1, 2, 0, ⟨0, 0, 5, 5⟩⟩])
    ⟨1, 2, 0, ⟨0, 0, 5, 5⟩⟩
    (by simp) rfl rfl (by decide)
  exact ⟨by simpa using h.1, by simpa using h.2.1, by simpa using h.2.2.1,
    by simpa using h.2.2.2.2.2⟩

end Carbon2d
